import Mathlib

/-!
# SoftTimers: a fixed pool of software timers

Shallow embedding of `SoftTimers.c` / `SoftTimers.h`.

* The static array `TimerTable[MAX_TIMERS]` is a function `Fin MAX_TIMERS → timer_t`
  that every operation takes and returns (explicit state passing).
* `uint16_t` / `uint8_t` values are natural numbers; the places where C arithmetic
  wraps (`TimeoutTick--`, the store of an `int` expression into a `uint16_t`) carry an
  explicit `% 65536`.
* A function pointer is the natural number of its code address, `0` being `NULL`.
* `Timer_Update` calls handlers.  A call is recorded as a `Call` (handler, argument)
  appended to a trace, in the order the calls are made; handlers are taken not to touch
  the table.
* `DIS_TIMER_INT_RX` / `EN_TIMER_INT_RX` have no effect on the table and are omitted from
  the operations.  For preemption by the tick interrupt the foreground calls are also given
  step by step (`Timer_Create_step`, `Timer_Start_step`, `Timer_Stop_step`): one step is one
  loop test or guard, or the whole span between the two macros.
-/

namespace SoftTimers

/-! ## Constants (`SoftTimers.c` lines 15-19, `SoftTimers.h` line 17) -/

abbrev MAX_TIMERS : Nat := 5
abbrev TIMER_ACTIVE_MASK : Nat := 0x8000
abbrev TIMER_CREATED_MASK : Nat := 0x4000
abbrev TIMER_CREATED_AND_ACTIVE_AMSK : Nat := 0xC000
abbrev TIMER_TIMEOUT_MASK : Nat := 0x3FFF
abbrev ERR_TIMER_NOT_AVAILABLE : Nat := 0xFF

/-! ## Data model (`SoftTimers.h` lines 22-28) -/

/-- The type `void (*)(uint8_t)`: a code address, `0` is `NULL`. -/
abbrev timer_handler_t : Type := Nat

/-- One slot of the table: the packed 16-bit word and the handler. -/
structure timer_t where
  TimeoutTick : Nat
  TimerHandler : timer_handler_t
  deriving DecidableEq, Repr

/-- The static array `TimerTable[MAX_TIMERS]`. -/
abbrev TimerTable : Type := Fin MAX_TIMERS → timer_t

/-- Every state word is a `uint16_t`. -/
def WellFormed (tbl : TimerTable) : Prop :=
  ∀ i : Fin MAX_TIMERS, (tbl i).TimeoutTick < 65536

instance (tbl : TimerTable) : Decidable (WellFormed tbl) := by
  unfold WellFormed; infer_instance

/-- One handler invocation `handler(arg)` made by `Timer_Update`. -/
structure Call where
  handler : timer_handler_t
  arg : Nat
  deriving DecidableEq, Repr

/-! ## Operations -/

/-- `Timer_Init`: `memset(&TimerTable, 0, sizeof(TimerTable))`. -/
def Timer_Init (_tbl : TimerTable) : TimerTable :=
  fun _ => { TimeoutTick := 0, TimerHandler := 0 }

/-- The `while` loop of `Timer_Create`, started at `idx`:
`while ((idx < MAX_TIMERS) && (TimerTable[idx].TimeoutTick & TIMER_CREATED_MASK)) idx++;`
The first argument bounds the number of iterations; `Timer_Create` passes `MAX_TIMERS`,
which the loop can never exceed when started at `0`. -/
def Timer_Create_scan (tbl : TimerTable) : Nat → Nat → Nat
  | 0, idx => idx
  | fuel + 1, idx =>
    if h : idx < MAX_TIMERS then
      if (tbl ⟨idx, h⟩).TimeoutTick &&& TIMER_CREATED_MASK ≠ 0 then
        Timer_Create_scan tbl fuel (idx + 1)
      else idx
    else idx

/-- `Timer_Create`: returns the `uint8_t` result and the new table.  The last branch
(an index above `MAX_TIMERS`) cannot be taken; see `Timer_Create_scan_le`. -/
def Timer_Create (tbl : TimerTable) (FunctionPointer : timer_handler_t) : Nat × TimerTable :=
  let idx := Timer_Create_scan tbl MAX_TIMERS 0
  if idx = MAX_TIMERS then
    (ERR_TIMER_NOT_AVAILABLE, tbl)
  else if h : idx < MAX_TIMERS then
    (idx, Function.update tbl ⟨idx, h⟩
      { TimeoutTick := TIMER_CREATED_MASK, TimerHandler := FunctionPointer })
  else
    (idx, tbl)

/-- `Timer_Destroy`. -/
def Timer_Destroy (tbl : TimerTable) (timerId : Nat) : TimerTable :=
  if h : timerId < MAX_TIMERS then
    Function.update tbl ⟨timerId, h⟩ { tbl ⟨timerId, h⟩ with TimeoutTick := 0 }
  else tbl

/-- `Timer_Start`:
`TimerTable[timerId].TimeoutTick |= (TIMER_ACTIVE_MASK + (timeout & TIMER_TIMEOUT_MASK));` -/
def Timer_Start (tbl : TimerTable) (timerId : Nat) (timeout : Nat) : TimerTable :=
  if h : timerId < MAX_TIMERS then
    Function.update tbl ⟨timerId, h⟩
      { tbl ⟨timerId, h⟩ with
        TimeoutTick :=
          ((tbl ⟨timerId, h⟩).TimeoutTick |||
            (TIMER_ACTIVE_MASK + (timeout &&& TIMER_TIMEOUT_MASK))) % 65536 }
  else tbl

/-- `Timer_Stop`: `TimerTable[timerId].TimeoutTick &= ~TIMER_ACTIVE_MASK;`
(the complement restricted to the 16 bits of the word). -/
def Timer_Stop (tbl : TimerTable) (timerId : Nat) : TimerTable :=
  if h : timerId < MAX_TIMERS then
    Function.update tbl ⟨timerId, h⟩
      { tbl ⟨timerId, h⟩ with
        TimeoutTick := (tbl ⟨timerId, h⟩).TimeoutTick &&& (0xFFFF ^^^ TIMER_ACTIVE_MASK) }
  else tbl

/-- The body of the `for` loop of `Timer_Update` at index `idx`, on the current table and
the trace of handler calls made so far. -/
def Timer_Update_slot (st : TimerTable × List Call) (idx : Fin MAX_TIMERS) :
    TimerTable × List Call :=
  if (st.1 idx).TimeoutTick &&& TIMER_CREATED_AND_ACTIVE_AMSK = TIMER_CREATED_AND_ACTIVE_AMSK then
    -- TimerTable[idx].TimeoutTick--;
    let w1 := ((st.1 idx).TimeoutTick + 65535) % 65536
    if w1 &&& TIMER_TIMEOUT_MASK = 0 then
      -- TimerTable[idx].TimeoutTick &= ~TIMER_ACTIVE_MASK; TimerTable[idx].TimerHandler(idx);
      (Function.update st.1 idx
          { st.1 idx with TimeoutTick := w1 &&& (0xFFFF ^^^ TIMER_ACTIVE_MASK) },
        st.2 ++ [{ handler := (st.1 idx).TimerHandler, arg := idx.val }])
    else
      (Function.update st.1 idx { st.1 idx with TimeoutTick := w1 }, st.2)
  else st

/-- `Timer_Update`: `for (idx=0; idx<MAX_TIMERS; idx++) { ... }`.
Returns the new table and the handler calls made, in order. -/
def Timer_Update (tbl : TimerTable) : TimerTable × List Call :=
  (List.finRange MAX_TIMERS).foldl Timer_Update_slot (tbl, [])

/-! ## Sequences of ticks -/

/-- The table after `n` successive calls of `Timer_Update`. -/
def tableAfter : Nat → TimerTable → TimerTable
  | 0, tbl => tbl
  | n + 1, tbl => (Timer_Update (tableAfter n tbl)).1

/-- The handler calls made by the `k`-th call of `Timer_Update` (`k = 1` is the first
call; there is no call number `0`). -/
def firedOn : Nat → TimerTable → List Call
  | 0, _ => []
  | k + 1, tbl => (Timer_Update (tableAfter k tbl)).2

/-- The tick `k` fires timer `id`: some handler is called with argument `id`. -/
def Fires (k : Nat) (tbl : TimerTable) (id : Nat) : Prop :=
  ∃ c ∈ firedOn k tbl, c.arg = id

/-! ## Sequences of API calls -/

/-- One call of the API of `SoftTimers.h`, with its arguments. -/
inductive Op where
  | init
  | create (FunctionPointer : timer_handler_t)
  | destroy (timerId : Nat)
  | start (timerId : Nat) (timeout : Nat)
  | stop (timerId : Nat)
  | update
  deriving DecidableEq, Repr

/-- The table after one API call (the value returned by `Timer_Create` and the handler
calls of `Timer_Update` are dropped). -/
def applyOp (tbl : TimerTable) : Op → TimerTable
  | Op.init => Timer_Init tbl
  | Op.create cb => (Timer_Create tbl cb).2
  | Op.destroy id => Timer_Destroy tbl id
  | Op.start id t => Timer_Start tbl id t
  | Op.stop id => Timer_Stop tbl id
  | Op.update => (Timer_Update tbl).1

/-- The table after a sequence of API calls, first call first. -/
def run (tbl : TimerTable) (ops : List Op) : TimerTable :=
  ops.foldl applyOp tbl

/-- The bookkeeping of which handler was passed to the latest `Timer_Create` that
returned each index (`none`: no such call since the last `Timer_Init`). -/
def recordOp (tbl : TimerTable) (rec : Fin MAX_TIMERS → Option timer_handler_t) :
    Op → Fin MAX_TIMERS → Option timer_handler_t
  | Op.init => fun _ => none
  | Op.create cb =>
    if h : (Timer_Create tbl cb).1 < MAX_TIMERS then
      Function.update rec ⟨(Timer_Create tbl cb).1, h⟩ (some cb)
    else rec
  | _ => rec

/-- The table together with the bookkeeping of `recordOp`, after a sequence of calls. -/
def runRecorded (st : TimerTable × (Fin MAX_TIMERS → Option timer_handler_t)) :
    List Op → TimerTable × (Fin MAX_TIMERS → Option timer_handler_t)
  | [] => st
  | op :: ops => runRecorded (applyOp st.1 op, recordOp st.1 st.2 op) ops

/-- Every `Timer_Create` of the sequence is passed a handler other than `NULL`. -/
def createsNonNull : List Op → Bool
  | [] => true
  | Op.create cb :: ops => decide (cb ≠ 0) && createsNonNull ops
  | _ :: ops => createsNonNull ops

/-- A `Timer_Start` call is applied to a slot that has `CREATED` set and it leaves a
countdown other than 0 in it; any other call passes. -/
def startOk (tbl : TimerTable) : Op → Bool
  | Op.start id t =>
    if h : id < MAX_TIMERS then
      decide ((tbl ⟨id, h⟩).TimeoutTick &&& TIMER_CREATED_MASK ≠ 0) &&
        decide ((Timer_Start tbl id t ⟨id, h⟩).TimeoutTick &&& TIMER_TIMEOUT_MASK ≠ 0)
    else true
  | _ => true

/-- Every `Timer_Start` of the sequence, run from `tbl`, satisfies `startOk` in the table
it is applied to. -/
def startsOk : TimerTable → List Op → Bool
  | _, [] => true
  | tbl, op :: ops => startOk tbl op && startsOk (applyOp tbl op) ops

/-- Restart cycles of timer `id`: for each timeout `T` of the list in turn,
`Timer_Start(id, T)` followed by `T` calls of `Timer_Update`. -/
def restartCycles (id : Nat) : TimerTable → List Nat → TimerTable
  | tbl, [] => tbl
  | tbl, T :: Ts => restartCycles id (tableAfter T (Timer_Start tbl id T)) Ts

/-- The property of one state word that disciplined sequences keep: it is a 16-bit word,
and if `ACTIVE` is set then `CREATED` is set and the countdown is not 0. -/
def SlotInv (w : Nat) : Prop :=
  w < 65536 ∧ (w / 32768 % 2 = 1 → w / 16384 % 2 = 1 ∧ w % 16384 ≠ 0)

/-- The property of a table and its `recordOp` bookkeeping that sequences of calls keep:
every word is a 16-bit word, and a slot with `CREATED` set holds the handler recorded for
its index, which is not `NULL`. -/
def RecInv (st : TimerTable × (Fin MAX_TIMERS → Option timer_handler_t)) : Prop :=
  ∀ i : Fin MAX_TIMERS, (st.1 i).TimeoutTick < 65536 ∧
    ((st.1 i).TimeoutTick / 16384 % 2 = 1 →
      st.2 i = some (st.1 i).TimerHandler ∧ (st.1 i).TimerHandler ≠ 0)

/-! ## Preemption of a foreground call by the tick interrupt -/

/-- Where a running `Timer_Create` stands: about to make the loop test at `idx`, past the
loop with `idx` fixed (line 43, interrupt still enabled), or returned. -/
inductive CreatePc where
  | scanning (idx : Nat)
  | decided (idx : Nat)
  | finished (ret : Nat)
  deriving DecidableEq, Repr

/-- Lines 43-57 of `Timer_Create`, for the index `idx` the loop ended with. -/
def Timer_Create_commit (tbl : TimerTable) (FunctionPointer : timer_handler_t) (idx : Nat) :
    Nat × TimerTable :=
  if idx = MAX_TIMERS then
    (ERR_TIMER_NOT_AVAILABLE, tbl)
  else if h : idx < MAX_TIMERS then
    (idx, Function.update tbl ⟨idx, h⟩
      { TimeoutTick := TIMER_CREATED_MASK, TimerHandler := FunctionPointer })
  else
    (idx, tbl)

/-- Modelled from the spec: `DIS_TIMER_INT_RX` and `EN_TIMER_INT_RX` (defined in `timer.h`)
disable and re-enable the tick interrupt, so the span between them is one step.
One step of `Timer_Create`: a loop test of lines 39-42 (one read of a state word), or,
past the loop, the rest of the function with its two stores between the macros. -/
def Timer_Create_step (FunctionPointer : timer_handler_t) (st : CreatePc × TimerTable) :
    CreatePc × TimerTable :=
  match st.1 with
  | CreatePc.scanning idx =>
    if h : idx < MAX_TIMERS then
      if (st.2 ⟨idx, h⟩).TimeoutTick &&& TIMER_CREATED_MASK ≠ 0 then
        (CreatePc.scanning (idx + 1), st.2)
      else (CreatePc.decided idx, st.2)
    else (CreatePc.decided idx, st.2)
  | CreatePc.decided idx =>
    (CreatePc.finished (Timer_Create_commit st.2 FunctionPointer idx).1,
      (Timer_Create_commit st.2 FunctionPointer idx).2)
  | CreatePc.finished ret => (CreatePc.finished ret, st.2)

/-- The value `Timer_Create` returned (0 while it has not returned). -/
def CreatePc.ret : CreatePc → Nat
  | CreatePc.finished r => r
  | _ => 0

/-- The call `Timer_Create(FunctionPointer)` preempted once by the tick interrupt: `k`
steps of the call, then `Timer_Update`, then the rest of the call (`MAX_TIMERS + 2` steps
are enough for a whole call: six loop tests and the final step). -/
def Timer_Create_preempted (tbl : TimerTable) (FunctionPointer : timer_handler_t) (k : Nat) :
    Nat × TimerTable :=
  let s1 := (Timer_Create_step FunctionPointer)^[k] (CreatePc.scanning 0, tbl)
  let s2 := (Timer_Create_step FunctionPointer)^[MAX_TIMERS + 2] (s1.1, (Timer_Update s1.2).1)
  (s2.1.ret, s2.2)

/-- Where a running `Timer_Start` or `Timer_Stop` stands: before the guard
`timerId < MAX_TIMERS`, before `DIS_TIMER_INT_RX`, or returned. -/
inductive GuardedPc where
  | entry
  | critical
  | returned
  deriving DecidableEq, Repr

/-- Modelled from the spec: the span between `DIS_TIMER_INT_RX` and `EN_TIMER_INT_RX` is
one step.  One step of `Timer_Start`: the guard, or the read-modify-write of the word. -/
def Timer_Start_step (timerId timeout : Nat) (st : GuardedPc × TimerTable) :
    GuardedPc × TimerTable :=
  match st.1 with
  | GuardedPc.entry =>
    if timerId < MAX_TIMERS then (GuardedPc.critical, st.2) else (GuardedPc.returned, st.2)
  | GuardedPc.critical => (GuardedPc.returned, Timer_Start st.2 timerId timeout)
  | GuardedPc.returned => (GuardedPc.returned, st.2)

/-- Modelled from the spec: the span between `DIS_TIMER_INT_RX` and `EN_TIMER_INT_RX` is
one step.  One step of `Timer_Stop`: the guard, or the read-modify-write of the word. -/
def Timer_Stop_step (timerId : Nat) (st : GuardedPc × TimerTable) :
    GuardedPc × TimerTable :=
  match st.1 with
  | GuardedPc.entry =>
    if timerId < MAX_TIMERS then (GuardedPc.critical, st.2) else (GuardedPc.returned, st.2)
  | GuardedPc.critical => (GuardedPc.returned, Timer_Stop st.2 timerId)
  | GuardedPc.returned => (GuardedPc.returned, st.2)

/-- The call `Timer_Start(timerId, timeout)` preempted once by the tick interrupt after `k`
steps (two steps are a whole call). -/
def Timer_Start_preempted (tbl : TimerTable) (timerId timeout k : Nat) : TimerTable :=
  let s1 := (Timer_Start_step timerId timeout)^[k] (GuardedPc.entry, tbl)
  ((Timer_Start_step timerId timeout)^[2] (s1.1, (Timer_Update s1.2).1)).2

/-- The call `Timer_Stop(timerId)` preempted once by the tick interrupt after `k` steps. -/
def Timer_Stop_preempted (tbl : TimerTable) (timerId k : Nat) : TimerTable :=
  let s1 := (Timer_Stop_step timerId)^[k] (GuardedPc.entry, tbl)
  ((Timer_Stop_step timerId)^[2] (s1.1, (Timer_Update s1.2).1)).2

/-- No slot is created and active with countdown 0 (the one state in which the decrement
of `Timer_Update` borrows out of the countdown field). -/
def NoZeroCountdown (tbl : TimerTable) : Prop :=
  ∀ i : Fin MAX_TIMERS,
    ¬ ((tbl i).TimeoutTick &&& TIMER_CREATED_AND_ACTIVE_AMSK = TIMER_CREATED_AND_ACTIVE_AMSK ∧
      (tbl i).TimeoutTick &&& TIMER_TIMEOUT_MASK = 0)

instance (tbl : TimerTable) : Decidable (NoZeroCountdown tbl) := by
  unfold NoZeroCountdown; infer_instance

/-! ## Concrete tables used to evaluate the operations -/

/-- A table with slot 0 created and idle, slot 3 created and running with countdown 2
(handler 11), slot 4 active but not created, the others empty. -/
def sampleTable : TimerTable :=
  ![{ TimeoutTick := 0x4000, TimerHandler := 9 },
    { TimeoutTick := 0, TimerHandler := 0 },
    { TimeoutTick := 0x0005, TimerHandler := 0 },
    { TimeoutTick := 0xC002, TimerHandler := 11 },
    { TimeoutTick := 0x8001, TimerHandler := 13 }]

/-- Two timers created on an empty table: ids 0 and 1, handlers 21 and 22. -/
def twoTimers : TimerTable :=
  (Timer_Create (Timer_Create (Timer_Init sampleTable) 21).2 22).2

/-- Two timers created and started with timeout 0: words 0xC000, handlers 1 and 2. -/
def zeroStarted : TimerTable :=
  run (Timer_Init sampleTable) [Op.create 1, Op.create 2, Op.start 0 0, Op.start 1 0]

/-! ## Description of one tick on one state word (used to state lemmas) -/

/-- The state word a slot with word `w` has after one `Timer_Update`. -/
def tickWord (w : Nat) : Nat :=
  if w &&& TIMER_CREATED_AND_ACTIVE_AMSK = TIMER_CREATED_AND_ACTIVE_AMSK then
    if ((w + 65535) % 65536) &&& TIMER_TIMEOUT_MASK = 0 then
      ((w + 65535) % 65536) &&& (0xFFFF ^^^ TIMER_ACTIVE_MASK)
    else (w + 65535) % 65536
  else w

/-- Whether a slot with word `w` expires (its handler is called) in one `Timer_Update`. -/
def expires (w : Nat) : Bool :=
  decide (w &&& TIMER_CREATED_AND_ACTIVE_AMSK = TIMER_CREATED_AND_ACTIVE_AMSK) &&
    decide (((w + 65535) % 65536) &&& TIMER_TIMEOUT_MASK = 0)

/-- The slot a given slot becomes after one `Timer_Update`. -/
def tickSlot (s : timer_t) : timer_t :=
  { TimeoutTick := tickWord s.TimeoutTick, TimerHandler := s.TimerHandler }

/-- The call made for slot `i` of `tbl` during one `Timer_Update`, if any. -/
def callOf (tbl : TimerTable) (i : Fin MAX_TIMERS) : Option Call :=
  if expires (tbl i).TimeoutTick then
    some { handler := (tbl i).TimerHandler, arg := i.val }
  else none

/-! ## Bit-level facts about the packed word -/

theorem and_timeout_mask (w : Nat) : w &&& 0x3FFF = w % 16384 :=
  Nat.and_pow_two_sub_one_eq_mod w 14

theorem and_not_active (w : Nat) : w &&& (0xFFFF ^^^ 0x8000) = w % 32768 :=
  Nat.and_pow_two_sub_one_eq_mod w 15

theorem testBit_iff (w i : Nat) : w.testBit i = true ↔ w / 2 ^ i % 2 = 1 := by
  rw [Nat.testBit_to_div_mod]; simp

theorem and_two_pow_ne_zero (w i : Nat) : w &&& 2 ^ i ≠ 0 ↔ w / 2 ^ i % 2 = 1 := by
  rw [← testBit_iff]
  constructor
  · intro h
    by_contra hb
    apply h
    apply Nat.eq_of_testBit_eq
    intro j
    rw [Nat.testBit_and, Nat.testBit_two_pow]
    by_cases hj : i = j
    · subst hj; simp at hb; simp [hb]
    · simp [hj]
  · intro h h0
    have := congrArg (fun x => Nat.testBit x i) h0
    simp [Nat.testBit_and, h, Nat.testBit_two_pow] at this

theorem and_created_ne_zero (w : Nat) : w &&& 0x4000 ≠ 0 ↔ w / 16384 % 2 = 1 := by
  have := and_two_pow_ne_zero w 14
  norm_num at this
  exact this

theorem and_active_ne_zero (w : Nat) : w &&& 0x8000 ≠ 0 ↔ w / 32768 % 2 = 1 := by
  have := and_two_pow_ne_zero w 15
  norm_num at this
  exact this

theorem and_created_active (w : Nat) : w &&& 0xC000 = 0xC000 ↔ w / 16384 % 4 = 3 := by
  have key : w &&& 0xC000 = 0xC000 ↔ (w.testBit 14 = true ∧ w.testBit 15 = true) := by
    constructor
    · intro h
      have h14 := congrArg (fun x => Nat.testBit x 14) h
      have h15 := congrArg (fun x => Nat.testBit x 15) h
      simp only [Nat.testBit_and] at h14 h15
      have e14 : Nat.testBit 0xC000 14 = true := by decide
      have e15 : Nat.testBit 0xC000 15 = true := by decide
      rw [e14] at h14; rw [e15] at h15
      simp at h14 h15
      exact ⟨h14, h15⟩
    · rintro ⟨h14, h15⟩
      apply Nat.eq_of_testBit_eq
      intro i
      rw [Nat.testBit_and]
      have low : ∀ j, j < 14 → Nat.testBit 0xC000 j = false := by decide
      by_cases hi : i < 16
      · by_cases hj : i < 14
        · simp [low i hj]
        · have hc : i = 14 ∨ i = 15 := by omega
          rcases hc with rfl | rfl
          · simp [h14]
          · simp [h15]
      · have : Nat.testBit 0xC000 i = false := by
          apply Nat.testBit_lt_two_pow
          calc (0xC000 : Nat) < 2 ^ 16 := by norm_num
            _ ≤ 2 ^ i := Nat.pow_le_pow_right (by norm_num) (by omega)
        simp [this]
  rw [key, testBit_iff, testBit_iff]
  norm_num
  omega

/-! ## One tick, slot by slot -/

theorem Timer_Update_slot_eq (tbl : TimerTable) (tr : List Call) (idx : Fin MAX_TIMERS) :
    Timer_Update_slot (tbl, tr) idx =
      (Function.update tbl idx (tickSlot (tbl idx)), tr ++ (callOf tbl idx).toList) := by
  unfold Timer_Update_slot tickSlot tickWord callOf expires
  by_cases h1 : (tbl idx).TimeoutTick &&& TIMER_CREATED_AND_ACTIVE_AMSK =
      TIMER_CREATED_AND_ACTIVE_AMSK
  · by_cases h2 : (((tbl idx).TimeoutTick + 65535) % 65536) &&& TIMER_TIMEOUT_MASK = 0
    · simp [h1, h2]
    · simp [h1, h2]
  · simp [h1]

theorem foldl_Timer_Update_slot (l : List (Fin MAX_TIMERS)) (hl : l.Nodup)
    (tbl : TimerTable) (tr : List Call) :
    l.foldl Timer_Update_slot (tbl, tr) =
      ((fun i => if i ∈ l then tickSlot (tbl i) else tbl i),
        tr ++ (l.filterMap (callOf tbl))) := by
  induction l generalizing tbl tr with
  | nil => simp
  | cons a l ih =>
    have ha : a ∉ l := (List.nodup_cons.mp hl).1
    have hl2 : l.Nodup := (List.nodup_cons.mp hl).2
    rw [List.foldl_cons, Timer_Update_slot_eq, ih hl2]
    have hcall : ∀ i ∈ l, callOf (Function.update tbl a (tickSlot (tbl a))) i = callOf tbl i := by
      intro i hi
      have hne : i ≠ a := fun e => ha (e ▸ hi)
      simp [callOf, Function.update_noteq hne]
    have hfm : l.filterMap (callOf (Function.update tbl a (tickSlot (tbl a)))) =
        l.filterMap (callOf tbl) := by
      apply List.filterMap_congr
      intro i hi
      exact hcall i hi
    rw [hfm]
    refine Prod.ext ?_ ?_
    · funext i
      by_cases hia : i = a
      · subst hia
        simp [ha]
      · by_cases hil : i ∈ l
        · simp [hil, Function.update_noteq hia]
        · simp [hil, hia, Function.update_noteq hia]
    · simp only [List.filterMap_cons]
      cases hc : callOf tbl a <;> simp

/-- The table after one `Timer_Update`: every slot has made one `tickSlot` step. -/
theorem Timer_Update_fst (tbl : TimerTable) (i : Fin MAX_TIMERS) :
    (Timer_Update tbl).1 i = tickSlot (tbl i) := by
  unfold Timer_Update
  rw [foldl_Timer_Update_slot _ (List.nodup_finRange _)]
  simp

/-- The calls of one `Timer_Update`: the expiring slots, by ascending index. -/
theorem Timer_Update_snd (tbl : TimerTable) :
    (Timer_Update tbl).2 = (List.finRange MAX_TIMERS).filterMap (callOf tbl) := by
  unfold Timer_Update
  rw [foldl_Timer_Update_slot _ (List.nodup_finRange _)]
  simp

theorem mem_Timer_Update_snd (tbl : TimerTable) (c : Call) :
    c ∈ (Timer_Update tbl).2 ↔
      ∃ i : Fin MAX_TIMERS, expires (tbl i).TimeoutTick = true ∧
        c = { handler := (tbl i).TimerHandler, arg := i.val } := by
  rw [Timer_Update_snd, List.mem_filterMap]
  constructor
  · rintro ⟨i, _, hi⟩
    refine ⟨i, ?_⟩
    unfold callOf at hi
    by_cases he : expires (tbl i).TimeoutTick = true
    · simp [he] at hi
      exact ⟨he, hi.symm⟩
    · simp [he] at hi
  · rintro ⟨i, he, hc⟩
    exact ⟨i, List.mem_finRange i, by simp [callOf, he, hc]⟩

theorem tableAfter_apply (n : Nat) (tbl : TimerTable) (i : Fin MAX_TIMERS) :
    tableAfter n tbl i =
      { TimeoutTick := tickWord^[n] (tbl i).TimeoutTick, TimerHandler := (tbl i).TimerHandler } := by
  induction n with
  | zero => simp [tableAfter]
  | succ n ih =>
    rw [tableAfter, Timer_Update_fst, ih, Function.iterate_succ_apply']
    rfl

/-- Tick `k + 1` fires `id` exactly when slot `id` expires after `k` ticks. -/
theorem Fires_succ_iff (k : Nat) (tbl : TimerTable) (id : Fin MAX_TIMERS) :
    Fires (k + 1) tbl id.val ↔ expires (tickWord^[k] (tbl id).TimeoutTick) = true := by
  unfold Fires firedOn
  constructor
  · rintro ⟨c, hc, harg⟩
    rw [mem_Timer_Update_snd] at hc
    obtain ⟨i, he, rfl⟩ := hc
    have : i = id := Fin.ext harg
    subst this
    rw [tableAfter_apply] at he
    exact he
  · intro he
    refine ⟨{ handler := (tbl id).TimerHandler, arg := id.val }, ?_, rfl⟩
    rw [mem_Timer_Update_snd]
    refine ⟨id, ?_, ?_⟩
    · rw [tableAfter_apply]; exact he
    · rw [tableAfter_apply]

theorem callOf_arg (tbl : TimerTable) (i : Fin MAX_TIMERS) (c : Call)
    (h : callOf tbl i = some c) : c.arg = i.val := by
  unfold callOf at h
  by_cases he : expires (tbl i).TimeoutTick = true
  · simp [he] at h; rw [← h]
  · simp [he] at h

theorem filter_calls (l : List (Fin MAX_TIMERS)) (hl : l.Nodup) (tbl : TimerTable)
    (id : Fin MAX_TIMERS) :
    (l.filterMap (callOf tbl)).filter (fun c => decide (c.arg = id.val)) =
      if id ∈ l then (callOf tbl id).toList else [] := by
  induction l with
  | nil => simp
  | cons a l ih =>
    have ha : a ∉ l := (List.nodup_cons.mp hl).1
    have hl2 : l.Nodup := (List.nodup_cons.mp hl).2
    rw [List.filterMap_cons]
    by_cases hia : id = a
    · subst hia
      cases hc : callOf tbl id with
      | none => simp [ih hl2, ha]
      | some c =>
        have := callOf_arg tbl id c hc
        simp [ih hl2, ha, this, List.filter_cons]
    · have hne : a.val ≠ id.val := fun e => hia (Fin.ext e).symm
      cases hc : callOf tbl a with
      | none => simp [ih hl2, hia]
      | some c =>
        have := callOf_arg tbl a c hc
        simp [ih hl2, hia, this, List.filter_cons, hne]

/-- The calls with argument `id` made by tick `k + 1`. -/
theorem firedOn_succ_filter (k : Nat) (tbl : TimerTable) (id : Fin MAX_TIMERS) :
    (firedOn (k + 1) tbl).filter (fun c => decide (c.arg = id.val)) =
      if expires (tickWord^[k] (tbl id).TimeoutTick) then
        [{ handler := (tbl id).TimerHandler, arg := id.val }]
      else [] := by
  rw [firedOn, Timer_Update_snd, filter_calls _ (List.nodup_finRange _)]
  simp only [List.mem_finRange, if_true]
  unfold callOf
  rw [tableAfter_apply]
  by_cases he : expires (tickWord^[k] (tbl id).TimeoutTick) = true
  · simp [he]
  · simp [he]

/-! ## Arithmetic form of one tick on one word -/

theorem tickWord_arith (w : Nat) :
    tickWord w =
      if w / 16384 % 4 = 3 then
        if ((w + 65535) % 65536) % 16384 = 0 then ((w + 65535) % 65536) % 32768
        else (w + 65535) % 65536
      else w := by
  unfold tickWord
  simp only [TIMER_CREATED_AND_ACTIVE_AMSK, TIMER_TIMEOUT_MASK, TIMER_ACTIVE_MASK,
    and_created_active, and_timeout_mask, and_not_active]

theorem expires_iff (w : Nat) :
    expires w = true ↔ w / 16384 % 4 = 3 ∧ ((w + 65535) % 65536) % 16384 = 0 := by
  unfold expires
  simp only [TIMER_CREATED_AND_ACTIVE_AMSK, TIMER_TIMEOUT_MASK,
    and_created_active, and_timeout_mask, Bool.and_eq_true, decide_eq_true_eq]

theorem tickWord_idle (w : Nat) (h : w / 16384 % 4 ≠ 3) : tickWord w = w := by
  rw [tickWord_arith]; simp [h]

theorem tickWord_iterate_idle (n w : Nat) (h : w / 16384 % 4 ≠ 3) : tickWord^[n] w = w :=
  Function.iterate_fixed (tickWord_idle w h) n

theorem tickWord_running (c : Nat) (h2 : 2 ≤ c) (h3 : c < 16384) :
    tickWord (0xC000 + c) = 0xC000 + (c - 1) := by
  rw [tickWord_arith]
  have e1 : (0xC000 + c) / 16384 % 4 = 3 := by omega
  have e2 : ((0xC000 + c + 65535) % 65536) % 16384 ≠ 0 := by omega
  rw [if_pos e1, if_neg e2]
  omega

theorem tickWord_last : tickWord (0xC000 + 1) = 0x4000 := by decide

theorem tickWord_iterate_running (T k : Nat) (hT : T < 16384) (hk : k < T) :
    tickWord^[k] (0xC000 + T) = 0xC000 + (T - k) := by
  induction k with
  | zero => simp
  | succ k ih =>
    rw [Function.iterate_succ_apply', ih (by omega), tickWord_running _ (by omega) (by omega)]
    omega

theorem tickWord_iterate_expired (T n : Nat) (hT1 : 1 ≤ T) (hT : T < 16384) (hn : T ≤ n) :
    tickWord^[n] (0xC000 + T) = 0x4000 := by
  obtain ⟨m, rfl⟩ : ∃ m, n = m + T := ⟨n - T, by omega⟩
  rw [Function.iterate_add_apply]
  obtain ⟨j, rfl⟩ : ∃ j, T = j + 1 := ⟨T - 1, by omega⟩
  rw [Function.iterate_succ_apply', tickWord_iterate_running _ _ hT (by omega)]
  have : 0xC000 + (j + 1 - j) = 0xC000 + 1 := by omega
  rw [this, tickWord_last]
  exact tickWord_iterate_idle m 0x4000 (by decide)

/-! ## The scan of `Timer_Create` -/

theorem Timer_Create_scan_spec (tbl : TimerTable) (fuel idx : Nat)
    (hidx : idx ≤ MAX_TIMERS) (hfuel : MAX_TIMERS ≤ fuel + idx) :
    idx ≤ Timer_Create_scan tbl fuel idx ∧
    Timer_Create_scan tbl fuel idx ≤ MAX_TIMERS ∧
    (∀ j : Fin MAX_TIMERS, idx ≤ j.val → j.val < Timer_Create_scan tbl fuel idx →
      (tbl j).TimeoutTick &&& TIMER_CREATED_MASK ≠ 0) ∧
    (∀ j : Fin MAX_TIMERS, j.val = Timer_Create_scan tbl fuel idx →
      (tbl j).TimeoutTick &&& TIMER_CREATED_MASK = 0) := by
  induction fuel generalizing idx with
  | zero =>
    have : idx = MAX_TIMERS := by omega
    subst this
    refine ⟨le_refl _, le_refl _, ?_, ?_⟩
    · intro j h1 h2; simp [Timer_Create_scan] at h2; omega
    · intro j h1; simp [Timer_Create_scan] at h1; omega
  | succ fuel ih =>
    unfold Timer_Create_scan
    by_cases h : idx < MAX_TIMERS
    · by_cases hc : (tbl ⟨idx, h⟩).TimeoutTick &&& TIMER_CREATED_MASK ≠ 0
      · rw [dif_pos h, if_pos hc]
        obtain ⟨a, b, c, d⟩ := ih (idx + 1) h (by omega)
        refine ⟨by omega, b, ?_, d⟩
        intro j h1 h2
        by_cases hj : j.val = idx
        · have : j = ⟨idx, h⟩ := Fin.ext hj
          rw [this]; exact hc
        · exact c j (by omega) h2
      · rw [dif_pos h, if_neg hc]
        refine ⟨le_refl _, le_of_lt h, ?_, ?_⟩
        · intro j h1 h2; omega
        · intro j h1
          have : j = ⟨idx, h⟩ := Fin.ext h1
          rw [this]
          exact not_not.mp hc
    · rw [dif_neg h]
      refine ⟨le_refl _, hidx, ?_, ?_⟩
      · intro j h1 h2; omega
      · intro j h1; omega

/-- The loop of `Timer_Create` never runs past the table. -/
theorem Timer_Create_scan_le (tbl : TimerTable) :
    Timer_Create_scan tbl MAX_TIMERS 0 ≤ MAX_TIMERS :=
  (Timer_Create_scan_spec tbl MAX_TIMERS 0 (by decide) (by decide)).2.1

/-- The loop of `Timer_Create` gives the same index with any larger iteration bound: the
bound `MAX_TIMERS` never cuts it short. -/
theorem Timer_Create_scan_fuel (tbl : TimerTable) (fuel idx : Nat) (hidx : idx ≤ MAX_TIMERS)
    (hfuel : MAX_TIMERS ≤ fuel + idx) :
    Timer_Create_scan tbl (fuel + 1) idx = Timer_Create_scan tbl fuel idx := by
  induction fuel generalizing idx with
  | zero =>
    have : idx = MAX_TIMERS := by omega
    subst this
    simp [Timer_Create_scan]
  | succ fuel ih =>
    rw [Timer_Create_scan]
    conv_rhs => rw [Timer_Create_scan]
    by_cases h : idx < MAX_TIMERS
    · by_cases hc : (tbl ⟨idx, h⟩).TimeoutTick &&& TIMER_CREATED_MASK ≠ 0
      · rw [dif_pos h, if_pos hc, dif_pos h, if_pos hc]
        exact ih (idx + 1) h (by omega)
      · rw [dif_pos h, if_neg hc, dif_pos h, if_neg hc]
    · rw [dif_neg h, dif_neg h]

/-- The two outcomes of `Timer_Create`. -/
theorem Timer_Create_cases (tbl : TimerTable) (cb : timer_handler_t) :
    ((∀ j : Fin MAX_TIMERS, (tbl j).TimeoutTick &&& TIMER_CREATED_MASK ≠ 0) ∧
      Timer_Create tbl cb = (ERR_TIMER_NOT_AVAILABLE, tbl)) ∨
    (∃ i : Fin MAX_TIMERS,
      (tbl i).TimeoutTick &&& TIMER_CREATED_MASK = 0 ∧
      (∀ j : Fin MAX_TIMERS, j < i → (tbl j).TimeoutTick &&& TIMER_CREATED_MASK ≠ 0) ∧
      Timer_Create tbl cb =
        (i.val, Function.update tbl i
          { TimeoutTick := TIMER_CREATED_MASK, TimerHandler := cb })) := by
  obtain ⟨_, hle, hbelow, hat⟩ := Timer_Create_scan_spec tbl MAX_TIMERS 0 (by decide) (by decide)
  by_cases hfull : Timer_Create_scan tbl MAX_TIMERS 0 = MAX_TIMERS
  · left
    refine ⟨fun j => hbelow j (Nat.zero_le _) (by rw [hfull]; exact j.isLt), ?_⟩
    simp [Timer_Create, hfull]
  · right
    have hlt : Timer_Create_scan tbl MAX_TIMERS 0 < MAX_TIMERS := lt_of_le_of_ne hle hfull
    refine ⟨⟨_, hlt⟩, hat _ rfl, fun j hj => hbelow j (Nat.zero_le _) hj, ?_⟩
    simp only [Timer_Create, if_neg hfull, dif_pos hlt]

/-! ## The word written by `Timer_Start` -/

/-- The sum in `Timer_Start` never carries: it is the bitwise OR of its two terms. -/
theorem active_add_eq_or (t : Nat) :
    0x8000 + (t &&& 0x3FFF) = 0x8000 ||| (t &&& 0x3FFF) := by
  rw [and_timeout_mask]
  have h : t % 16384 < 2 ^ 15 := by
    have : t % 16384 < 16384 := Nat.mod_lt _ (by norm_num)
    norm_num; omega
  have := Nat.mul_add_lt_is_or h 1
  norm_num at this
  exact this

theorem created_active_add_eq_or (c : Nat) (hc : c < 16384) : 0xC000 + c = 0xC000 ||| c := by
  have h : c < 2 ^ 14 := by norm_num; exact hc
  have := Nat.mul_add_lt_is_or h 3
  norm_num at this
  exact this

/-- Starting a slot whose word is exactly `CREATED`. -/
theorem start_word_created (t : Nat) :
    (0x4000 ||| (0x8000 + (t &&& 0x3FFF))) % 65536 = 0xC000 + t % 16384 := by
  rw [active_add_eq_or, ← Nat.lor_assoc]
  have e : (0x4000 ||| 0x8000 : Nat) = 0xC000 := by decide
  rw [e, and_timeout_mask, ← created_active_add_eq_or _ (Nat.mod_lt _ (by norm_num))]
  omega

theorem Timer_Start_apply_self (tbl : TimerTable) (id : Fin MAX_TIMERS) (t : Nat) :
    Timer_Start tbl id.val t id =
      { TimeoutTick := ((tbl id).TimeoutTick ||| (0x8000 + (t &&& 0x3FFF))) % 65536,
        TimerHandler := (tbl id).TimerHandler } := by
  simp [Timer_Start, id.isLt]

theorem Timer_Start_apply_other (tbl : TimerTable) (id : Nat) (t : Nat) (j : Fin MAX_TIMERS)
    (h : j.val ≠ id) : Timer_Start tbl id t j = tbl j := by
  unfold Timer_Start
  by_cases hid : id < MAX_TIMERS
  · rw [dif_pos hid]
    exact Function.update_noteq (fun e => h (by rw [e])) _ _
  · rw [dif_neg hid]

theorem Timer_Stop_apply_self (tbl : TimerTable) (id : Fin MAX_TIMERS) :
    Timer_Stop tbl id.val id =
      { TimeoutTick := (tbl id).TimeoutTick % 32768, TimerHandler := (tbl id).TimerHandler } := by
  simp [Timer_Stop, id.isLt, and_not_active]

theorem Timer_Destroy_apply_self (tbl : TimerTable) (id : Fin MAX_TIMERS) :
    Timer_Destroy tbl id.val id =
      { TimeoutTick := 0, TimerHandler := (tbl id).TimerHandler } := by
  simp [Timer_Destroy, id.isLt]

/-- The slot of a timer that was just created and then started with `T`. -/
theorem created_started_slot (tbl : TimerTable) (cb : timer_handler_t) (i : Fin MAX_TIMERS)
    (T : Nat) :
    Timer_Start (Function.update tbl i
        { TimeoutTick := TIMER_CREATED_MASK, TimerHandler := cb }) i.val T i =
      { TimeoutTick := 0xC000 + T % 16384, TimerHandler := cb } := by
  rw [Timer_Start_apply_self]
  simp only [Function.update_same, TIMER_CREATED_MASK, start_word_created]

theorem not_Fires_zero (tbl : TimerTable) (id : Nat) : ¬ Fires 0 tbl id := by
  simp [Fires, firedOn]

/-- A slot that counts down from `T` is fired by tick `T` and by no other tick. -/
theorem countdown_fires (tbl : TimerTable) (id : Fin MAX_TIMERS) (T : Nat)
    (hT1 : 1 ≤ T) (hT2 : T ≤ 16383) (hw : (tbl id).TimeoutTick = 0xC000 + T) (k : Nat) :
    Fires k tbl id.val ↔ k = T := by
  cases k with
  | zero =>
    constructor
    · intro h; exact absurd h (not_Fires_zero _ _)
    · intro h; omega
  | succ k =>
    rw [Fires_succ_iff, hw, expires_iff]
    rcases Nat.lt_trichotomy (k + 1) T with h | h | h
    · rw [tickWord_iterate_running T k (by omega) (by omega)]
      constructor
      · intro ⟨_, h2⟩; omega
      · intro h2; omega
    · obtain ⟨j, rfl⟩ : ∃ j, T = j + 1 := ⟨k, h.symm⟩
      have hj : j = k := by omega
      subst hj
      rw [tickWord_iterate_running (j + 1) j (by omega) (by omega)]
      constructor
      · intro _; rfl
      · intro _; omega
    · rw [tickWord_iterate_expired T k hT1 (by omega) (by omega)]
      constructor
      · intro ⟨h1, _⟩; omega
      · intro h2; omega

/-! ## Claims -/

/-- C1: when `Timer_Create(cb)` succeeds with `id` and `1 ≤ T ≤ 16383`, after
`Timer_Start(id, T)` the ticks `1 .. T-1` do not fire `id`, tick `T` makes exactly one
call with argument `id`, namely `cb(id)`, and no later tick fires `id`. -/
theorem C1_create_start_fires_once_on_tick_T (tbl : TimerTable) (cb : timer_handler_t)
    (T : Nat) (hT1 : 1 ≤ T) (hT2 : T ≤ 16383)
    (hok : (Timer_Create tbl cb).1 ≠ ERR_TIMER_NOT_AVAILABLE) :
    (∀ k, 1 ≤ k → k < T →
      ¬ Fires k (Timer_Start (Timer_Create tbl cb).2 (Timer_Create tbl cb).1 T)
        (Timer_Create tbl cb).1) ∧
    (firedOn T (Timer_Start (Timer_Create tbl cb).2 (Timer_Create tbl cb).1 T)).filter
        (fun c => decide (c.arg = (Timer_Create tbl cb).1)) =
      [{ handler := cb, arg := (Timer_Create tbl cb).1 }] ∧
    (∀ k, T < k →
      ¬ Fires k (Timer_Start (Timer_Create tbl cb).2 (Timer_Create tbl cb).1 T)
        (Timer_Create tbl cb).1) := by
  rcases Timer_Create_cases tbl cb with ⟨_, hc⟩ | ⟨i, _, _, hc⟩
  · rw [hc] at hok; exact absurd rfl hok
  · rw [hc]
    simp only
    have hslot := created_started_slot tbl cb i T
    rw [Nat.mod_eq_of_lt (by omega : T < 16384)] at hslot
    have hw := congrArg timer_t.TimeoutTick hslot
    have hh := congrArg timer_t.TimerHandler hslot
    simp only at hw hh
    refine ⟨?_, ?_, ?_⟩
    · intro k _ hk hf
      have := (countdown_fires _ i T hT1 hT2 hw k).mp hf
      omega
    · obtain ⟨j, rfl⟩ : ∃ j, T = j + 1 := ⟨T - 1, by omega⟩
      rw [firedOn_succ_filter, hw, hh,
        tickWord_iterate_running (j + 1) j (by omega) (by omega)]
      have : expires (0xC000 + (j + 1 - j)) = true := by
        rw [expires_iff]; omega
      rw [if_pos this]
    · intro k hk hf
      have := (countdown_fires _ i T hT1 hT2 hw k).mp hf
      omega

/-- C1 at a concrete input: slot 0 is taken, so the timer gets id 1; with `T = 3`. -/
theorem C1_create_start_fires_once_on_tick_T_witness :
    (Timer_Create sampleTable 7).1 ≠ ERR_TIMER_NOT_AVAILABLE ∧
    ((∀ k, 1 ≤ k → k < 3 →
      ¬ Fires k (Timer_Start (Timer_Create sampleTable 7).2 (Timer_Create sampleTable 7).1 3)
        (Timer_Create sampleTable 7).1) ∧
    (firedOn 3 (Timer_Start (Timer_Create sampleTable 7).2 (Timer_Create sampleTable 7).1 3)).filter
        (fun c => decide (c.arg = (Timer_Create sampleTable 7).1)) =
      [{ handler := 7, arg := (Timer_Create sampleTable 7).1 }] ∧
    (∀ k, 3 < k →
      ¬ Fires k (Timer_Start (Timer_Create sampleTable 7).2 (Timer_Create sampleTable 7).1 3)
        (Timer_Create sampleTable 7).1)) :=
  ⟨by decide,
    C1_create_start_fires_once_on_tick_T sampleTable 7 3 (by decide) (by decide) (by decide)⟩


/-- `Timer_Create` takes the first slot whose word lacks `CREATED`. -/
theorem Timer_Create_first_free (tbl : TimerTable) (cb : timer_handler_t) (i : Fin MAX_TIMERS)
    (hfree : (tbl i).TimeoutTick &&& TIMER_CREATED_MASK = 0)
    (hbelow : ∀ j : Fin MAX_TIMERS, j < i → (tbl j).TimeoutTick &&& TIMER_CREATED_MASK ≠ 0) :
    Timer_Create tbl cb =
      (i.val, Function.update tbl i { TimeoutTick := TIMER_CREATED_MASK, TimerHandler := cb }) := by
  rcases Timer_Create_cases tbl cb with ⟨hall, _⟩ | ⟨i2, hfree2, hbelow2, hc⟩
  · exact absurd hfree (hall i)
  · have : i2 = i := by
      rcases lt_trichotomy i2 i with h | h | h
      · exact absurd hfree2 (hbelow i2 h)
      · exact h
      · exact absurd hfree (hbelow2 i h)
    subst this
    exact hc

/-- `Timer_Create` on a table with every slot created. -/
theorem Timer_Create_full (tbl : TimerTable) (cb : timer_handler_t)
    (hall : ∀ j : Fin MAX_TIMERS, (tbl j).TimeoutTick &&& TIMER_CREATED_MASK ≠ 0) :
    Timer_Create tbl cb = (ERR_TIMER_NOT_AVAILABLE, tbl) := by
  rcases Timer_Create_cases tbl cb with ⟨_, hc⟩ | ⟨i, hfree, _, _⟩
  · exact hc
  · exact absurd hfree (hall i)

theorem Timer_Create_full_proj (tbl : TimerTable) (cb : timer_handler_t)
    (hall : ∀ j : Fin MAX_TIMERS, (tbl j).TimeoutTick &&& TIMER_CREATED_MASK ≠ 0) :
    (Timer_Create tbl cb).1 = ERR_TIMER_NOT_AVAILABLE ∧ (Timer_Create tbl cb).2 = tbl := by
  rw [Timer_Create_full tbl cb hall]
  exact ⟨rfl, rfl⟩

/-- On a table whose first `k < MAX_TIMERS` slots are created and whose other slots are
not, `Timer_Create` returns `k`, and the new table has its first `k + 1` slots created. -/
theorem Timer_Create_prefix (tbl : TimerTable) (cb : timer_handler_t) (k : Nat)
    (hk : k < MAX_TIMERS)
    (hpre : ∀ j : Fin MAX_TIMERS,
      (j.val < k → (tbl j).TimeoutTick &&& TIMER_CREATED_MASK ≠ 0) ∧
      (k ≤ j.val → (tbl j).TimeoutTick &&& TIMER_CREATED_MASK = 0)) :
    (Timer_Create tbl cb).1 = k ∧
    ∀ j : Fin MAX_TIMERS,
      (j.val < k + 1 → ((Timer_Create tbl cb).2 j).TimeoutTick &&& TIMER_CREATED_MASK ≠ 0) ∧
      (k + 1 ≤ j.val → ((Timer_Create tbl cb).2 j).TimeoutTick &&& TIMER_CREATED_MASK = 0) := by
  have e := Timer_Create_first_free tbl cb ⟨k, hk⟩ ((hpre ⟨k, hk⟩).2 (le_refl _))
    (fun j hj => (hpre j).1 hj)
  rw [e]
  refine ⟨rfl, fun j => ⟨?_, ?_⟩⟩
  · intro hj
    by_cases hjk : j = ⟨k, hk⟩
    · subst hjk
      simp only [Function.update_same]
      decide
    · simp only [Function.update_noteq hjk]
      have : j.val ≠ k := fun e2 => hjk (Fin.ext e2)
      exact (hpre j).1 (by omega)
  · intro hj
    have hjk : j ≠ ⟨k, hk⟩ := by
      intro e2
      have := congrArg Fin.val e2
      simp only at this
      omega
    simp only [Function.update_noteq hjk]
    exact (hpre j).2 (by omega)

/-- C2: after `Timer_Init`, five successive `Timer_Create` calls return 0, 1, 2, 3, 4 in
that order (so they are pairwise distinct and each is a valid index below 5); a sixth
returns `ERR_TIMER_NOT_AVAILABLE` (0xFF) and leaves the table exactly as it was after the
fifth call. -/
theorem C2_five_creates_then_full (old : TimerTable)
    (c0 c1 c2 c3 c4 c5 : timer_handler_t) :
    (Timer_Create (Timer_Init old) c0).1 = 0 ∧
    (Timer_Create (Timer_Create (Timer_Init old) c0).2 c1).1 = 1 ∧
    (Timer_Create (Timer_Create (Timer_Create (Timer_Init old) c0).2 c1).2 c2).1 = 2 ∧
    (Timer_Create (Timer_Create (Timer_Create (Timer_Create (Timer_Init old) c0).2 c1).2 c2).2 c3).1 = 3 ∧
    (Timer_Create (Timer_Create (Timer_Create (Timer_Create (Timer_Create (Timer_Init old) c0).2 c1).2 c2).2 c3).2 c4).1 = 4 ∧
    (Timer_Create (Timer_Create (Timer_Create (Timer_Create (Timer_Create (Timer_Create (Timer_Init old) c0).2 c1).2 c2).2 c3).2 c4).2 c5).1 = ERR_TIMER_NOT_AVAILABLE ∧
    ERR_TIMER_NOT_AVAILABLE = 0xFF ∧
    (Timer_Create (Timer_Create (Timer_Create (Timer_Create (Timer_Create (Timer_Create (Timer_Init old) c0).2 c1).2 c2).2 c3).2 c4).2 c5).2 =
      (Timer_Create (Timer_Create (Timer_Create (Timer_Create (Timer_Create (Timer_Init old) c0).2 c1).2 c2).2 c3).2 c4).2 := by
  have p0 : ∀ j : Fin MAX_TIMERS,
      (j.val < 0 → (Timer_Init old j).TimeoutTick &&& TIMER_CREATED_MASK ≠ 0) ∧
      (0 ≤ j.val → (Timer_Init old j).TimeoutTick &&& TIMER_CREATED_MASK = 0) :=
    fun j => ⟨fun h => absurd h (Nat.not_lt_zero _), fun _ => Nat.zero_and _⟩
  have q0 := Timer_Create_prefix (Timer_Init old) c0 0 (by decide) p0
  have q1 := Timer_Create_prefix _ c1 1 (by decide) q0.2
  have q2 := Timer_Create_prefix _ c2 2 (by decide) q1.2
  have q3 := Timer_Create_prefix _ c3 3 (by decide) q2.2
  have q4 := Timer_Create_prefix _ c4 4 (by decide) q3.2
  have e5 := Timer_Create_full_proj _ c5 (fun j => (q4.2 j).1 j.isLt)
  exact ⟨q0.1, q1.1, q2.1, q3.1, q4.1, e5.1, rfl, e5.2⟩

/-- C3: when some slot lacks `CREATED`, `Timer_Create(cb)` returns the smallest index `i`
whose word lacks `CREATED`; afterwards slot `i` has word exactly 0x4000 (`CREATED` set,
`ACTIVE` clear, countdown 0) and handler `cb`, and every other slot is unchanged. -/
theorem C3_create_first_fit (tbl : TimerTable) (cb : timer_handler_t)
    (hfree : ∃ j : Fin MAX_TIMERS, (tbl j).TimeoutTick &&& TIMER_CREATED_MASK = 0) :
    ∃ i : Fin MAX_TIMERS,
      (Timer_Create tbl cb).1 = i.val ∧
      (tbl i).TimeoutTick &&& TIMER_CREATED_MASK = 0 ∧
      (∀ j : Fin MAX_TIMERS, (tbl j).TimeoutTick &&& TIMER_CREATED_MASK = 0 → i ≤ j) ∧
      (Timer_Create tbl cb).2 i = { TimeoutTick := 0x4000, TimerHandler := cb } ∧
      ((Timer_Create tbl cb).2 i).TimeoutTick &&& TIMER_CREATED_MASK ≠ 0 ∧
      ((Timer_Create tbl cb).2 i).TimeoutTick &&& TIMER_ACTIVE_MASK = 0 ∧
      ((Timer_Create tbl cb).2 i).TimeoutTick &&& TIMER_TIMEOUT_MASK = 0 ∧
      (∀ j : Fin MAX_TIMERS, j ≠ i → (Timer_Create tbl cb).2 j = tbl j) := by
  rcases Timer_Create_cases tbl cb with ⟨hall, _⟩ | ⟨i, hi, hbelow, hc⟩
  · obtain ⟨j, hj⟩ := hfree
    exact absurd hj (hall j)
  · refine ⟨i, ?_, hi, ?_, ?_, ?_, ?_, ?_, ?_⟩
    · rw [hc]
    · intro j hj
      by_contra hlt
      exact hbelow j (lt_of_not_le hlt) hj
    · rw [hc]; simp only [Function.update_same]
    · rw [hc]; simp only [Function.update_same]; decide
    · rw [hc]; simp only [Function.update_same]; decide
    · rw [hc]; simp only [Function.update_same]; decide
    · intro j hj
      rw [hc]
      exact Function.update_noteq hj _ _

/-- C3 at `sampleTable`: slot 0 is created, slot 1 is the first free one. -/
theorem C3_create_first_fit_witness :
    (∃ j : Fin MAX_TIMERS, (sampleTable j).TimeoutTick &&& TIMER_CREATED_MASK = 0) ∧
    (Timer_Create sampleTable 7).1 = 1 ∧
    ∃ i : Fin MAX_TIMERS,
      (Timer_Create sampleTable 7).1 = i.val ∧
      (sampleTable i).TimeoutTick &&& TIMER_CREATED_MASK = 0 ∧
      (∀ j : Fin MAX_TIMERS, (sampleTable j).TimeoutTick &&& TIMER_CREATED_MASK = 0 → i ≤ j) ∧
      (Timer_Create sampleTable 7).2 i = { TimeoutTick := 0x4000, TimerHandler := 7 } ∧
      ((Timer_Create sampleTable 7).2 i).TimeoutTick &&& TIMER_CREATED_MASK ≠ 0 ∧
      ((Timer_Create sampleTable 7).2 i).TimeoutTick &&& TIMER_ACTIVE_MASK = 0 ∧
      ((Timer_Create sampleTable 7).2 i).TimeoutTick &&& TIMER_TIMEOUT_MASK = 0 ∧
      (∀ j : Fin MAX_TIMERS, j ≠ i → (Timer_Create sampleTable 7).2 j = sampleTable j) :=
  ⟨by decide, by decide, C3_create_first_fit sampleTable 7 (by decide)⟩

/-- C4: `Timer_Create` returns `ERR_TIMER_NOT_AVAILABLE` (0xFF) exactly when each of the
5 slots has `CREATED` set, and then the table is unchanged; in every other case the
result is a valid index below 5.  The error value itself is not a valid index. -/
theorem C4_create_error_iff_full (tbl : TimerTable) (cb : timer_handler_t) :
    ((Timer_Create tbl cb).1 = ERR_TIMER_NOT_AVAILABLE ↔
      ∀ j : Fin MAX_TIMERS, (tbl j).TimeoutTick &&& TIMER_CREATED_MASK ≠ 0) ∧
    ((Timer_Create tbl cb).1 = ERR_TIMER_NOT_AVAILABLE → (Timer_Create tbl cb).2 = tbl) ∧
    ((Timer_Create tbl cb).1 ≠ ERR_TIMER_NOT_AVAILABLE → (Timer_Create tbl cb).1 < MAX_TIMERS) ∧
    ERR_TIMER_NOT_AVAILABLE = 0xFF ∧ ¬ (ERR_TIMER_NOT_AVAILABLE < MAX_TIMERS) := by
  rcases Timer_Create_cases tbl cb with ⟨hall, hc⟩ | ⟨i, hi, _, hc⟩
  · rw [hc]
    exact ⟨⟨fun _ => hall, fun _ => rfl⟩, fun _ => rfl, fun h => absurd rfl h, rfl, by decide⟩
  · rw [hc]
    have hne : i.val ≠ ERR_TIMER_NOT_AVAILABLE := by
      have := i.isLt
      simp only [MAX_TIMERS, ERR_TIMER_NOT_AVAILABLE] at *
      omega
    refine ⟨⟨fun h => absurd h hne, fun hall => absurd hi (hall i)⟩, fun h => absurd h hne,
      fun _ => i.isLt, rfl, by decide⟩

/-- A slot that is not both created and active is never fired and keeps its word. -/
theorem idle_slot_stays (tbl : TimerTable) (i : Fin MAX_TIMERS)
    (h : (tbl i).TimeoutTick / 16384 % 4 ≠ 3) :
    (∀ m, ¬ Fires m tbl i.val) ∧
    (∀ n, (tableAfter n tbl i).TimeoutTick = (tbl i).TimeoutTick) := by
  constructor
  · intro m
    cases m with
    | zero => exact not_Fires_zero _ _
    | succ m =>
      rw [Fires_succ_iff, tickWord_iterate_idle _ _ h, expires_iff]
      intro ⟨h1, _⟩
      exact h h1
  · intro n
    rw [tableAfter_apply]
    exact tickWord_iterate_idle _ _ h

/-- C5: for a freshly created slot `id` started with `Timer_Start(id, T)`,
`1 ≤ T ≤ 16383`, if `Timer_Stop(id)` is called after `k < T` ticks, then for every `n`
none of the next `n` ticks fires `id`, and slot `id` has the same word after them. -/
theorem C5_stop_before_expiry_never_fires (tbl : TimerTable) (cb : timer_handler_t)
    (T k n : Nat) (_hT1 : 1 ≤ T) (_hT2 : T ≤ 16383) (_hk : k < T)
    (hok : (Timer_Create tbl cb).1 ≠ ERR_TIMER_NOT_AVAILABLE) :
    (∀ m, 1 ≤ m → m ≤ n →
      ¬ Fires m
        (Timer_Stop
          (tableAfter k (Timer_Start (Timer_Create tbl cb).2 (Timer_Create tbl cb).1 T))
          (Timer_Create tbl cb).1)
        (Timer_Create tbl cb).1) ∧
    (∀ i : Fin MAX_TIMERS, i.val = (Timer_Create tbl cb).1 →
      (tableAfter n
        (Timer_Stop
          (tableAfter k (Timer_Start (Timer_Create tbl cb).2 (Timer_Create tbl cb).1 T))
          (Timer_Create tbl cb).1) i).TimeoutTick =
      (Timer_Stop
          (tableAfter k (Timer_Start (Timer_Create tbl cb).2 (Timer_Create tbl cb).1 T))
          (Timer_Create tbl cb).1 i).TimeoutTick) := by
  rcases Timer_Create_cases tbl cb with ⟨_, hc⟩ | ⟨i, _, _, hc⟩
  · rw [hc] at hok; exact absurd rfl hok
  · rw [hc]
    simp only
    have hidle : (Timer_Stop (tableAfter k (Timer_Start (Function.update tbl i
        { TimeoutTick := TIMER_CREATED_MASK, TimerHandler := cb }) i.val T)) i.val
          i).TimeoutTick / 16384 % 4 ≠ 3 := by
      rw [Timer_Stop_apply_self]
      simp only
      omega
    obtain ⟨h1, h2⟩ := idle_slot_stays _ i hidle
    refine ⟨fun m _ _ => h1 m, ?_⟩
    intro j hj
    have : j = i := Fin.ext hj
    subst this
    exact h2 n

/-- C5 at a concrete input: created in `sampleTable` (id 1), `T = 4`, stopped after
`k = 2` ticks, then `n = 10` further ticks. -/
theorem C5_stop_before_expiry_never_fires_witness :
    (Timer_Create sampleTable 7).1 ≠ ERR_TIMER_NOT_AVAILABLE ∧
    (Timer_Stop (tableAfter 2 (Timer_Start (Timer_Create sampleTable 7).2 1 4)) 1
      ⟨1, by decide⟩).TimeoutTick = 0x4002 ∧
    ((∀ m, 1 ≤ m → m ≤ 10 →
      ¬ Fires m
        (Timer_Stop
          (tableAfter 2 (Timer_Start (Timer_Create sampleTable 7).2 (Timer_Create sampleTable 7).1 4))
          (Timer_Create sampleTable 7).1)
        (Timer_Create sampleTable 7).1) ∧
    (∀ i : Fin MAX_TIMERS, i.val = (Timer_Create sampleTable 7).1 →
      (tableAfter 10
        (Timer_Stop
          (tableAfter 2 (Timer_Start (Timer_Create sampleTable 7).2 (Timer_Create sampleTable 7).1 4))
          (Timer_Create sampleTable 7).1) i).TimeoutTick =
      (Timer_Stop
          (tableAfter 2 (Timer_Start (Timer_Create sampleTable 7).2 (Timer_Create sampleTable 7).1 4))
          (Timer_Create sampleTable 7).1 i).TimeoutTick)) :=
  ⟨by decide, by decide,
    C5_stop_before_expiry_never_fires sampleTable 7 4 2 10 (by decide) (by decide) (by decide)
      (by decide)⟩

/-- C6: for every table and every valid `id < 5`, whatever the slot held, after
`Timer_Destroy(id)` none of the next `n` ticks fires `id`, for every `n`. -/
theorem C6_destroy_never_fires (tbl : TimerTable) (id : Nat) (hid : id < MAX_TIMERS)
    (n m : Nat) (_hm1 : 1 ≤ m) (_hm : m ≤ n) :
    ¬ Fires m (Timer_Destroy tbl id) id := by
  have hidle : (Timer_Destroy tbl id ⟨id, hid⟩).TimeoutTick / 16384 % 4 ≠ 3 := by
    rw [Timer_Destroy_apply_self tbl ⟨id, hid⟩]
    show (0 : Nat) / 16384 % 4 ≠ 3
    decide
  exact (idle_slot_stays _ ⟨id, hid⟩ hidle).1 m

/-- C6 at `sampleTable`, slot 3 (created, active, countdown 2): without the destroy it
fires on tick 2; after `Timer_Destroy(3)` tick 2 does not fire it. -/
theorem C6_destroy_never_fires_witness :
    Fires 2 sampleTable 3 ∧ ¬ Fires 2 (Timer_Destroy sampleTable 3) 3 :=
  ⟨⟨⟨11, 3⟩, by decide, rfl⟩,
    C6_destroy_never_fires sampleTable 3 (by decide) 5 2 (by decide) (by decide)⟩

/-- The word `Timer_Start` stores, for a 16-bit old word. -/
theorem start_word (w t : Nat) (hw : w < 65536) :
    (w ||| (0x8000 + (t &&& 0x3FFF))) % 65536 = w ||| 0x8000 ||| (t &&& 0x3FFF) := by
  rw [active_add_eq_or, ← Nat.or_assoc]
  apply Nat.mod_eq_of_lt
  have h16 : (65536 : Nat) = 2 ^ 16 := by norm_num
  rw [h16]
  apply Nat.or_lt_two_pow
  · apply Nat.or_lt_two_pow
    · rw [← h16]; exact hw
    · norm_num
  · rw [and_timeout_mask]
    have : t % 16384 < 16384 := Nat.mod_lt _ (by norm_num)
    norm_num; omega

theorem start_word_keeps_created (w t : Nat) :
    (w ||| 0x8000 ||| (t &&& 0x3FFF)) &&& 0x4000 = w &&& 0x4000 := by
  rw [Nat.and_comm, Nat.and_or_distrib_left, Nat.and_or_distrib_left]
  have e1 : (0x4000 &&& 0x8000 : Nat) = 0 := by decide
  have e2 : 0x4000 &&& (t &&& 0x3FFF) = 0 := by
    rw [Nat.and_comm t, ← Nat.and_assoc]
    have : (0x4000 &&& 0x3FFF : Nat) = 0 := by decide
    rw [this, Nat.zero_and]
  rw [e1, e2, Nat.or_zero, Nat.or_zero, Nat.and_comm]

theorem Timer_Start_mod (tbl : TimerTable) (id t : Nat) :
    Timer_Start tbl id t = Timer_Start tbl id (t % 16384) := by
  unfold Timer_Start
  have e : t % 16384 &&& TIMER_TIMEOUT_MASK = t &&& TIMER_TIMEOUT_MASK := by
    simp only [TIMER_TIMEOUT_MASK, and_timeout_mask, Nat.mod_mod]
  rw [e]

/-- C7: for a table of 16-bit words, a valid `id < 5` and a 16-bit timeout `t`,
`Timer_Start(id, t)` sets the word of slot `id` to `old ||| 0x8000 ||| (t &&& 0x3FFF)`
(the sum `0x8000 + (t &&& 0x3FFF)` of the code equals the OR), keeps the `CREATED` bit,
the handler and every other slot; so `Timer_Start(id, t)` gives the same table as
`Timer_Start(id, t % 16384)`, and `Timer_Start(id, 16384)` the same as `Timer_Start(id, 0)`. -/
theorem C7_start_word_and_truncation (tbl : TimerTable) (hwf : WellFormed tbl)
    (id : Nat) (hid : id < MAX_TIMERS) (t : Nat) (_ht : t < 65536) :
    (Timer_Start tbl id t ⟨id, hid⟩).TimeoutTick =
      (tbl ⟨id, hid⟩).TimeoutTick ||| TIMER_ACTIVE_MASK ||| (t &&& TIMER_TIMEOUT_MASK) ∧
    TIMER_ACTIVE_MASK + (t &&& TIMER_TIMEOUT_MASK) =
      TIMER_ACTIVE_MASK ||| (t &&& TIMER_TIMEOUT_MASK) ∧
    (Timer_Start tbl id t ⟨id, hid⟩).TimeoutTick &&& TIMER_CREATED_MASK =
      (tbl ⟨id, hid⟩).TimeoutTick &&& TIMER_CREATED_MASK ∧
    (Timer_Start tbl id t ⟨id, hid⟩).TimerHandler = (tbl ⟨id, hid⟩).TimerHandler ∧
    (∀ j : Fin MAX_TIMERS, j.val ≠ id → Timer_Start tbl id t j = tbl j) ∧
    Timer_Start tbl id t = Timer_Start tbl id (t % 16384) ∧
    Timer_Start tbl id 16384 = Timer_Start tbl id 0 := by
  have hnew : (Timer_Start tbl id t ⟨id, hid⟩).TimeoutTick =
      (tbl ⟨id, hid⟩).TimeoutTick ||| 0x8000 ||| (t &&& 0x3FFF) := by
    rw [Timer_Start_apply_self tbl ⟨id, hid⟩ t]
    exact start_word _ t (hwf ⟨id, hid⟩)
  refine ⟨hnew, active_add_eq_or t, ?_, ?_, ?_, Timer_Start_mod tbl id t, ?_⟩
  · rw [hnew]; exact start_word_keeps_created _ t
  · rw [Timer_Start_apply_self tbl ⟨id, hid⟩ t]
  · intro j hj; exact Timer_Start_apply_other tbl id t j hj
  · rw [Timer_Start_mod tbl id 16384]

/-- C7 at `sampleTable`, slot 0 (word 0x4000), timeouts 16389 and 5. -/
theorem C7_start_word_and_truncation_witness :
    WellFormed sampleTable ∧
    (Timer_Start sampleTable 0 16389 ⟨0, by decide⟩).TimeoutTick = 0xC005 ∧
    ((Timer_Start sampleTable 0 16389 ⟨0, by decide⟩).TimeoutTick =
      (sampleTable ⟨0, by decide⟩).TimeoutTick ||| TIMER_ACTIVE_MASK |||
        (16389 &&& TIMER_TIMEOUT_MASK) ∧
    TIMER_ACTIVE_MASK + (16389 &&& TIMER_TIMEOUT_MASK) =
      TIMER_ACTIVE_MASK ||| (16389 &&& TIMER_TIMEOUT_MASK) ∧
    (Timer_Start sampleTable 0 16389 ⟨0, by decide⟩).TimeoutTick &&& TIMER_CREATED_MASK =
      (sampleTable ⟨0, by decide⟩).TimeoutTick &&& TIMER_CREATED_MASK ∧
    (Timer_Start sampleTable 0 16389 ⟨0, by decide⟩).TimerHandler =
      (sampleTable ⟨0, by decide⟩).TimerHandler ∧
    (∀ j : Fin MAX_TIMERS, j.val ≠ 0 → Timer_Start sampleTable 0 16389 j = sampleTable j) ∧
    Timer_Start sampleTable 0 16389 = Timer_Start sampleTable 0 (16389 % 16384) ∧
    Timer_Start sampleTable 0 16384 = Timer_Start sampleTable 0 0) :=
  ⟨by decide, by decide,
    C7_start_word_and_truncation sampleTable (by decide) 0 (by decide) 16389 (by decide)⟩

/-- The calls with argument `i` made by one `Timer_Update`. -/
theorem Timer_Update_filter (tbl : TimerTable) (i : Fin MAX_TIMERS) :
    (Timer_Update tbl).2.filter (fun c => decide (c.arg = i.val)) =
      if expires (tbl i).TimeoutTick then
        [{ handler := (tbl i).TimerHandler, arg := i.val }]
      else [] :=
  firedOn_succ_filter 0 tbl i

theorem Timer_Update_not_fired (tbl : TimerTable) (i : Fin MAX_TIMERS)
    (h : ¬ expires (tbl i).TimeoutTick = true) :
    ∀ c ∈ (Timer_Update tbl).2, c.arg ≠ i.val := by
  intro c hc harg
  rw [mem_Timer_Update_snd] at hc
  obtain ⟨j, he, rfl⟩ := hc
  have : j = i := Fin.ext harg
  subst this
  exact h he

/-- C8: one `Timer_Update` acts on each slot by itself.  A slot with `CREATED` and
`ACTIVE` set and countdown `c ≥ 2` gets countdown `c - 1`, keeps both flags and is not
fired; with `c = 1` it ends with word exactly 0x4000 and its stored handler is called
(once) with the index of the slot; a slot lacking `CREATED` or lacking `ACTIVE` is
unchanged and not fired; the handler field never changes. -/
theorem C8_update_slot_by_slot (tbl : TimerTable) (i : Fin MAX_TIMERS) :
    ((tbl i).TimeoutTick &&& TIMER_CREATED_AND_ACTIVE_AMSK = TIMER_CREATED_AND_ACTIVE_AMSK →
      2 ≤ (tbl i).TimeoutTick &&& TIMER_TIMEOUT_MASK →
        ((Timer_Update tbl).1 i).TimeoutTick &&& TIMER_TIMEOUT_MASK =
          ((tbl i).TimeoutTick &&& TIMER_TIMEOUT_MASK) - 1 ∧
        ((Timer_Update tbl).1 i).TimeoutTick &&& TIMER_CREATED_AND_ACTIVE_AMSK =
          TIMER_CREATED_AND_ACTIVE_AMSK ∧
        ∀ c ∈ (Timer_Update tbl).2, c.arg ≠ i.val) ∧
    ((tbl i).TimeoutTick &&& TIMER_CREATED_AND_ACTIVE_AMSK = TIMER_CREATED_AND_ACTIVE_AMSK →
      (tbl i).TimeoutTick &&& TIMER_TIMEOUT_MASK = 1 →
        ((Timer_Update tbl).1 i).TimeoutTick = 0x4000 ∧
        (Timer_Update tbl).2.filter (fun c => decide (c.arg = i.val)) =
          [{ handler := (tbl i).TimerHandler, arg := i.val }]) ∧
    (((tbl i).TimeoutTick &&& TIMER_CREATED_MASK = 0 ∨
        (tbl i).TimeoutTick &&& TIMER_ACTIVE_MASK = 0) →
      (Timer_Update tbl).1 i = tbl i ∧ ∀ c ∈ (Timer_Update tbl).2, c.arg ≠ i.val) ∧
    ((Timer_Update tbl).1 i).TimerHandler = (tbl i).TimerHandler := by
  simp only [TIMER_CREATED_AND_ACTIVE_AMSK, TIMER_TIMEOUT_MASK, TIMER_CREATED_MASK,
    TIMER_ACTIVE_MASK, and_created_active, and_timeout_mask]
  rw [Timer_Update_fst]
  refine ⟨?_, ?_, ?_, rfl⟩
  · intro hf hc
    have hw : (tickSlot (tbl i)).TimeoutTick = ((tbl i).TimeoutTick + 65535) % 65536 := by
      show tickWord _ = _
      rw [tickWord_arith, if_pos hf, if_neg (by omega)]
    rw [hw]
    refine ⟨by omega, by omega, ?_⟩
    apply Timer_Update_not_fired
    rw [expires_iff]
    omega
  · intro hf hc
    constructor
    · show tickWord _ = _
      rw [tickWord_arith, if_pos hf, if_pos (by omega)]
      omega
    · rw [Timer_Update_filter, if_pos]
      rw [expires_iff]
      omega
  · intro hidle
    have hnf : (tbl i).TimeoutTick / 16384 % 4 ≠ 3 := by
      rcases hidle with h | h
      · have := (and_created_ne_zero (tbl i).TimeoutTick).not.mp (not_not.mpr h)
        omega
      · have := (and_active_ne_zero (tbl i).TimeoutTick).not.mp (not_not.mpr h)
        omega
    constructor
    · show ({ TimeoutTick := tickWord _, TimerHandler := _ } : timer_t) = _
      rw [tickWord_idle _ hnf]
    · apply Timer_Update_not_fired
      rw [expires_iff]
      omega

/-- In index order, `a` comes before `b` whenever `a < b`. -/
theorem finRange_split (a b : Fin MAX_TIMERS) (hab : a < b) :
    ∃ l1 l2 l3 : List (Fin MAX_TIMERS),
      List.finRange MAX_TIMERS = l1 ++ (a :: (l2 ++ (b :: l3))) := by
  obtain ⟨s, r, hsr⟩ := List.append_of_mem (List.mem_finRange a)
  have hp := List.pairwise_lt_finRange MAX_TIMERS
  rw [hsr] at hp
  obtain ⟨_, _, hcross⟩ := List.pairwise_append.mp hp
  have hb : b ∈ s ++ a :: r := hsr ▸ List.mem_finRange b
  rcases List.mem_append.mp hb with hbs | hbr
  · have := hcross b hbs a (List.mem_cons_self _ _)
    exact absurd (lt_trans this hab) (lt_irrefl _)
  · rcases List.mem_cons.mp hbr with hba | hbr2
    · exact absurd (hba ▸ hab) (lt_irrefl _)
    · obtain ⟨r1, r2, hr⟩ := List.append_of_mem hbr2
      exact ⟨s, r1, r2, by rw [hsr, hr]⟩

/-- The arguments of the calls of one `Timer_Update` are strictly increasing. -/
theorem Timer_Update_args_increasing (tbl : TimerTable) :
    ((Timer_Update tbl).2.map Call.arg).Pairwise (· < ·) := by
  rw [Timer_Update_snd, List.pairwise_map]
  have hp := List.pairwise_lt_finRange MAX_TIMERS
  have key : ∀ l : List (Fin MAX_TIMERS), l.Pairwise (· < ·) →
      (l.filterMap (callOf tbl)).Pairwise (fun c d => c.arg < d.arg) := by
    intro l hl
    rw [List.pairwise_filterMap]
    refine hl.imp ?_
    intro x y hxy c hc d hd
    rw [callOf_arg tbl x c (Option.mem_def.mp hc), callOf_arg tbl y d (Option.mem_def.mp hd)]
    exact hxy
  exact key _ hp

/-- When slots `a < b` both expire in the same tick, the call for `a` is made before the
call for `b`. -/
theorem Timer_Update_order (tbl : TimerTable) (a b : Fin MAX_TIMERS) (hab : a < b)
    (ha : expires (tbl a).TimeoutTick = true) (hb : expires (tbl b).TimeoutTick = true) :
    ∃ l1 l2 l3 : List Call,
      (Timer_Update tbl).2 =
        l1 ++ ({ handler := (tbl a).TimerHandler, arg := a.val } ::
          (l2 ++ ({ handler := (tbl b).TimerHandler, arg := b.val } :: l3))) := by
  obtain ⟨s1, s2, s3, hs⟩ := finRange_split a b hab
  refine ⟨s1.filterMap (callOf tbl), s2.filterMap (callOf tbl), s3.filterMap (callOf tbl), ?_⟩
  have ca : callOf tbl a = some { handler := (tbl a).TimerHandler, arg := a.val } := by
    simp [callOf, ha]
  have cb : callOf tbl b = some { handler := (tbl b).TimerHandler, arg := b.val } := by
    simp [callOf, hb]
  rw [Timer_Update_snd, hs, List.filterMap_append, List.filterMap_cons, ca,
    List.filterMap_append, List.filterMap_cons, cb]

theorem Timer_Start_comm (tbl : TimerTable) (a b : Nat) (hab : a ≠ b) (Ta Tb : Nat) :
    Timer_Start (Timer_Start tbl a Ta) b Tb = Timer_Start (Timer_Start tbl b Tb) a Ta := by
  funext j
  by_cases ha : a < MAX_TIMERS
  · by_cases hb : b < MAX_TIMERS
    · by_cases hja : j.val = a
      · have hjb : j.val ≠ b := fun e => hab (hja.symm.trans e)
        have : j = ⟨a, ha⟩ := Fin.ext hja
        subst this
        rw [Timer_Start_apply_other _ b Tb _ hjb, Timer_Start_apply_self tbl ⟨a, ha⟩,
          Timer_Start_apply_self _ ⟨a, ha⟩, Timer_Start_apply_other _ b Tb _ hjb]
      · by_cases hjb : j.val = b
        · have : j = ⟨b, hb⟩ := Fin.ext hjb
          subst this
          rw [Timer_Start_apply_other _ a Ta _ hja, Timer_Start_apply_self tbl ⟨b, hb⟩,
            Timer_Start_apply_self _ ⟨b, hb⟩, Timer_Start_apply_other _ a Ta _ hja]
        · rw [Timer_Start_apply_other _ b Tb _ hjb, Timer_Start_apply_other _ a Ta _ hja,
            Timer_Start_apply_other _ a Ta _ hja, Timer_Start_apply_other _ b Tb _ hjb]
    · simp [Timer_Start, hb]
  · simp [Timer_Start, ha]

/-- The two slots of C9 after both starts. -/
theorem two_started_slots (tbl : TimerTable) (a b : Fin MAX_TIMERS) (hab : a < b)
    (Ta Tb : Nat) (hTa : Ta ≤ 16383) (hTb : Tb ≤ 16383)
    (ha : (tbl a).TimeoutTick = TIMER_CREATED_MASK)
    (hb : (tbl b).TimeoutTick = TIMER_CREATED_MASK) :
    Timer_Start (Timer_Start tbl a.val Ta) b.val Tb a =
      { TimeoutTick := 0xC000 + Ta, TimerHandler := (tbl a).TimerHandler } ∧
    Timer_Start (Timer_Start tbl a.val Ta) b.val Tb b =
      { TimeoutTick := 0xC000 + Tb, TimerHandler := (tbl b).TimerHandler } := by
  have hne : a.val ≠ b.val := Nat.ne_of_lt hab
  constructor
  · rw [Timer_Start_apply_other _ _ _ _ hne, Timer_Start_apply_self, ha]
    simp only [TIMER_CREATED_MASK, start_word_created]
    rw [Nat.mod_eq_of_lt (by omega)]
  · rw [Timer_Start_apply_self, Timer_Start_apply_other _ _ _ _ hne.symm, hb]
    simp only [TIMER_CREATED_MASK, start_word_created]
    rw [Nat.mod_eq_of_lt (by omega)]

/-- C9: the ids fired by one `Timer_Update` are strictly increasing (each index at most
once, in ascending order).  For two freshly created timers `a < b` (word 0x4000) started
with `Ta`, `Tb` in `1 .. 16383` (in either order of the two starts), `a` fires exactly on
tick `Ta` and `b` exactly on tick `Tb`, so with `Ta < Tb` timer `a` fires on an earlier
tick; and when `Ta = Tb` that one tick calls the handler of `a` before the handler of `b`. -/
theorem C9_fire_order :
    (∀ tbl : TimerTable, ((Timer_Update tbl).2.map Call.arg).Pairwise (· < ·)) ∧
    (∀ (tbl : TimerTable) (a b : Fin MAX_TIMERS) (Ta Tb : Nat),
      a < b → (tbl a).TimeoutTick = TIMER_CREATED_MASK →
      (tbl b).TimeoutTick = TIMER_CREATED_MASK →
      1 ≤ Ta → Ta ≤ 16383 → 1 ≤ Tb → Tb ≤ 16383 →
      Timer_Start (Timer_Start tbl a.val Ta) b.val Tb =
          Timer_Start (Timer_Start tbl b.val Tb) a.val Ta ∧
      (∀ k, Fires k (Timer_Start (Timer_Start tbl a.val Ta) b.val Tb) a.val ↔ k = Ta) ∧
      (∀ k, Fires k (Timer_Start (Timer_Start tbl a.val Ta) b.val Tb) b.val ↔ k = Tb) ∧
      (Ta < Tb → ∀ ka kb,
        Fires ka (Timer_Start (Timer_Start tbl a.val Ta) b.val Tb) a.val →
        Fires kb (Timer_Start (Timer_Start tbl a.val Ta) b.val Tb) b.val → ka < kb) ∧
      (Ta = Tb → ∃ l1 l2 l3 : List Call,
        firedOn Ta (Timer_Start (Timer_Start tbl a.val Ta) b.val Tb) =
          l1 ++ ({ handler := (tbl a).TimerHandler, arg := a.val } ::
            (l2 ++ ({ handler := (tbl b).TimerHandler, arg := b.val } :: l3))))) := by
  refine ⟨Timer_Update_args_increasing, ?_⟩
  intro tbl a b Ta Tb hab ha hb hTa1 hTa2 hTb1 hTb2
  obtain ⟨sa, sb⟩ := two_started_slots tbl a b hab Ta Tb hTa2 hTb2 ha hb
  have fa := countdown_fires _ a Ta hTa1 hTa2 (congrArg timer_t.TimeoutTick sa)
  have fb := countdown_fires _ b Tb hTb1 hTb2 (congrArg timer_t.TimeoutTick sb)
  refine ⟨Timer_Start_comm tbl a.val b.val (Nat.ne_of_lt hab) Ta Tb, fa, fb, ?_, ?_⟩
  · intro hlt ka kb hka hkb
    rw [(fa ka).mp hka, (fb kb).mp hkb]
    exact hlt
  · intro heq
    subst heq
    obtain ⟨j, rfl⟩ : ∃ j, Ta = j + 1 := ⟨Ta - 1, by omega⟩
    have ea := (Fires_succ_iff j _ a).mp ((fa (j + 1)).mpr rfl)
    have eb := (Fires_succ_iff j _ b).mp ((fb (j + 1)).mpr rfl)
    have ha2 : expires (tableAfter j (Timer_Start (Timer_Start tbl a.val (j + 1)) b.val (j + 1))
        a).TimeoutTick = true := by
      rw [tableAfter_apply]; exact ea
    have hb2 : expires (tableAfter j (Timer_Start (Timer_Start tbl a.val (j + 1)) b.val (j + 1))
        b).TimeoutTick = true := by
      rw [tableAfter_apply]; exact eb
    obtain ⟨l1, l2, l3, hl⟩ := Timer_Update_order _ a b hab ha2 hb2
    refine ⟨l1, l2, l3, ?_⟩
    rw [firedOn, hl, tableAfter_apply, tableAfter_apply, sa, sb]

/-- C9 at `twoTimers` (timers 0 and 1, handlers 21 and 22), both started with timeout 2:
the second tick calls handler 21 with 0, then handler 22 with 1. -/
theorem C9_fire_order_witness :
    firedOn 1 (Timer_Start (Timer_Start twoTimers 0 2) 1 2) = [] ∧
    firedOn 2 (Timer_Start (Timer_Start twoTimers 0 2) 1 2) = [⟨21, 0⟩, ⟨22, 1⟩] ∧
    ∃ l1 l2 l3 : List Call,
      firedOn 2 (Timer_Start (Timer_Start twoTimers 0 2) 1 2) =
        l1 ++ ({ handler := (twoTimers ⟨0, by decide⟩).TimerHandler, arg := 0 } ::
          (l2 ++ ({ handler := (twoTimers ⟨1, by decide⟩).TimerHandler, arg := 1 } :: l3))) :=
  ⟨by decide, by decide,
    (C9_fire_order.2 twoTimers ⟨0, by decide⟩ ⟨1, by decide⟩ 2 2 (by decide) (by decide)
      (by decide) (by decide) (by decide) (by decide) (by decide)).2.2.2.2 rfl⟩

/-- C10: for every table, every `id` with `5 ≤ id ≤ 255` (0xFF included) and every
timeout `t`, each of `Timer_Destroy(id)`, `Timer_Start(id, t)` and `Timer_Stop(id)`
leaves the whole table unchanged. -/
theorem C10_out_of_range_id_is_noop (tbl : TimerTable) (id t : Nat)
    (hlo : MAX_TIMERS ≤ id) (_hhi : id ≤ 255) :
    Timer_Destroy tbl id = tbl ∧ Timer_Start tbl id t = tbl ∧ Timer_Stop tbl id = tbl := by
  have h : ¬ id < MAX_TIMERS := Nat.not_lt.mpr hlo
  refine ⟨?_, ?_, ?_⟩
  · unfold Timer_Destroy; rw [dif_neg h]
  · unfold Timer_Start; rw [dif_neg h]
  · unfold Timer_Stop; rw [dif_neg h]

/-- C10 at `sampleTable` with `id = 0xFF`, the value `Timer_Create` returns when full. -/
theorem C10_out_of_range_id_is_noop_witness :
    MAX_TIMERS = 5 ∧ ERR_TIMER_NOT_AVAILABLE = 255 ∧
    (Timer_Destroy sampleTable 255 = sampleTable ∧ Timer_Start sampleTable 255 9 = sampleTable ∧
      Timer_Stop sampleTable 255 = sampleTable) :=
  ⟨rfl, rfl, C10_out_of_range_id_is_noop sampleTable 255 9 (by decide) (by decide)⟩

/-- C8 at `sampleTable`: slot 3 (word 0xC002) counts down to 0xC001 without a call, and
on the next tick ends at 0x4000 with the call `11(3)`; slot 4 (active, not created) and
slot 0 (created, not active) stay as they are. -/
theorem C8_update_slot_by_slot_witness :
    ((Timer_Update sampleTable).1 ⟨3, by decide⟩).TimeoutTick = 0xC001 ∧
    (Timer_Update sampleTable).2 = [] ∧
    ((Timer_Update (Timer_Update sampleTable).1).1 ⟨3, by decide⟩).TimeoutTick = 0x4000 ∧
    (Timer_Update (Timer_Update sampleTable).1).2 = [⟨11, 3⟩] ∧
    (Timer_Update sampleTable).1 ⟨4, by decide⟩ = sampleTable ⟨4, by decide⟩ ∧
    ((Timer_Update sampleTable).1 ⟨0, by decide⟩).TimerHandler =
      (sampleTable ⟨0, by decide⟩).TimerHandler :=
  ⟨by decide, by decide, by decide, by decide,
    ((C8_update_slot_by_slot sampleTable ⟨4, by decide⟩).2.2.1 (Or.inl (by decide))).1,
    (C8_update_slot_by_slot sampleTable ⟨0, by decide⟩).2.2.2⟩

/-! ## Frame lemmas for `Timer_Stop` and `Timer_Destroy` -/

theorem Timer_Stop_apply_other (tbl : TimerTable) (id : Nat) (j : Fin MAX_TIMERS)
    (h : j.val ≠ id) : Timer_Stop tbl id j = tbl j := by
  unfold Timer_Stop
  by_cases hid : id < MAX_TIMERS
  · rw [dif_pos hid]
    exact Function.update_noteq (fun e => h (by rw [e])) _ _
  · rw [dif_neg hid]

theorem Timer_Destroy_apply_other (tbl : TimerTable) (id : Nat) (j : Fin MAX_TIMERS)
    (h : j.val ≠ id) : Timer_Destroy tbl id j = tbl j := by
  unfold Timer_Destroy
  by_cases hid : id < MAX_TIMERS
  · rw [dif_pos hid]
    exact Function.update_noteq (fun e => h (by rw [e])) _ _
  · rw [dif_neg hid]

/-- A table whose slots are all idle is a fixed point of `Timer_Update`, and no call is
made. -/
theorem Timer_Update_all_idle (tbl : TimerTable)
    (h : ∀ i : Fin MAX_TIMERS, (tbl i).TimeoutTick / 16384 % 4 ≠ 3) :
    Timer_Update tbl = (tbl, []) := by
  refine Prod.ext ?_ ?_
  · funext i
    rw [Timer_Update_fst]
    show ({ TimeoutTick := tickWord _, TimerHandler := _ } : timer_t) = _
    rw [tickWord_idle _ (h i)]
  · apply List.eq_nil_iff_forall_not_mem.mpr
    intro c hc
    rw [mem_Timer_Update_snd] at hc
    obtain ⟨i, he, _⟩ := hc
    rw [expires_iff] at he
    exact h i he.1

/-- If slot `i` lacks `CREATED`, `Timer_Create` succeeds with an index not above `i`. -/
theorem Timer_Create_le_of_free (tbl : TimerTable) (cb : timer_handler_t) (i : Fin MAX_TIMERS)
    (hfree : (tbl i).TimeoutTick &&& TIMER_CREATED_MASK = 0) :
    (Timer_Create tbl cb).1 ≤ i.val := by
  rcases Timer_Create_cases tbl cb with ⟨hall, _⟩ | ⟨i2, _, hbelow, hc⟩
  · exact absurd hfree (hall i)
  · rw [hc]
    show i2.val ≤ i.val
    by_contra hlt
    exact hbelow i (Nat.lt_of_not_le hlt) hfree

/-- C11: from any prior table, after `Timer_Init` every slot has word 0 (not `CREATED`,
not `ACTIVE`, countdown 0) and no stored handler, so every index 0..4 is available to
`Timer_Create`; and for every `n`, `n` calls of `Timer_Update` after `Timer_Init` make no
handler call and leave the table unchanged. -/
theorem C11_init_clears_table (old : TimerTable) :
    (∀ i : Fin MAX_TIMERS,
      Timer_Init old i = { TimeoutTick := 0, TimerHandler := 0 } ∧
      (Timer_Init old i).TimeoutTick &&& TIMER_CREATED_MASK = 0 ∧
      (Timer_Init old i).TimeoutTick &&& TIMER_ACTIVE_MASK = 0 ∧
      (Timer_Init old i).TimeoutTick &&& TIMER_TIMEOUT_MASK = 0) ∧
    (∀ n : Nat, tableAfter n (Timer_Init old) = Timer_Init old) ∧
    (∀ k : Nat, firedOn k (Timer_Init old) = []) := by
  have hidle : ∀ i : Fin MAX_TIMERS, (Timer_Init old i).TimeoutTick / 16384 % 4 ≠ 3 := by
    intro i
    show (0 : Nat) / 16384 % 4 ≠ 3
    decide
  have hfix : ∀ n : Nat, tableAfter n (Timer_Init old) = Timer_Init old := by
    intro n
    induction n with
    | zero => rfl
    | succ n ih => rw [tableAfter, ih, Timer_Update_all_idle _ hidle]
  refine ⟨fun i => ⟨rfl, Nat.zero_and _, Nat.zero_and _, Nat.zero_and _⟩, hfix, ?_⟩
  intro k
  cases k with
  | zero => rfl
  | succ k => rw [firedOn, hfix, Timer_Update_all_idle _ hidle]

/-- C12: for every table and valid `id < 5`, `Timer_Stop(id)` sets the word of slot `id`
to `old &&& 0x7FFF`: only `ACTIVE` is cleared, `CREATED` and the 14 countdown bits are
unchanged, the handler and every other slot are unchanged; and `Timer_Stop` is
idempotent. -/
theorem C12_stop_clears_only_active (tbl : TimerTable) (id : Nat) (hid : id < MAX_TIMERS) :
    (Timer_Stop tbl id ⟨id, hid⟩).TimeoutTick = (tbl ⟨id, hid⟩).TimeoutTick &&& 0x7FFF ∧
    (Timer_Stop tbl id ⟨id, hid⟩).TimeoutTick &&& TIMER_ACTIVE_MASK = 0 ∧
    (Timer_Stop tbl id ⟨id, hid⟩).TimeoutTick &&& TIMER_CREATED_MASK =
      (tbl ⟨id, hid⟩).TimeoutTick &&& TIMER_CREATED_MASK ∧
    (Timer_Stop tbl id ⟨id, hid⟩).TimeoutTick &&& TIMER_TIMEOUT_MASK =
      (tbl ⟨id, hid⟩).TimeoutTick &&& TIMER_TIMEOUT_MASK ∧
    (Timer_Stop tbl id ⟨id, hid⟩).TimerHandler = (tbl ⟨id, hid⟩).TimerHandler ∧
    (∀ j : Fin MAX_TIMERS, j.val ≠ id → Timer_Stop tbl id j = tbl j) ∧
    Timer_Stop (Timer_Stop tbl id) id = Timer_Stop tbl id := by
  have hw : (Timer_Stop tbl id ⟨id, hid⟩).TimeoutTick =
      (tbl ⟨id, hid⟩).TimeoutTick &&& 0x7FFF := by
    rw [Timer_Stop_apply_self tbl ⟨id, hid⟩]
    exact (Nat.and_pow_two_sub_one_eq_mod _ 15).symm
  have e1 : (0x7FFF &&& 0x8000 : Nat) = 0 := by decide
  have e2 : (0x7FFF &&& 0x4000 : Nat) = 0x4000 := by decide
  have e3 : (0x7FFF &&& 0x3FFF : Nat) = 0x3FFF := by decide
  refine ⟨hw, ?_, ?_, ?_, ?_, ?_, ?_⟩
  · rw [hw, Nat.and_assoc]
    show (tbl ⟨id, hid⟩).TimeoutTick &&& (0x7FFF &&& 0x8000) = 0
    rw [e1, Nat.and_zero]
  · rw [hw, Nat.and_assoc]
    show (tbl ⟨id, hid⟩).TimeoutTick &&& (0x7FFF &&& 0x4000) = _
    rw [e2]
  · rw [hw, Nat.and_assoc]
    show (tbl ⟨id, hid⟩).TimeoutTick &&& (0x7FFF &&& 0x3FFF) = _
    rw [e3]
  · rw [Timer_Stop_apply_self tbl ⟨id, hid⟩]
  · intro j hj; exact Timer_Stop_apply_other tbl id j hj
  · funext j
    by_cases hj : j.val = id
    · have : j = ⟨id, hid⟩ := Fin.ext hj
      subst this
      rw [Timer_Stop_apply_self _ ⟨id, hid⟩, Timer_Stop_apply_self tbl ⟨id, hid⟩]
      simp only [Nat.mod_mod]
    · rw [Timer_Stop_apply_other _ id j hj]

/-- C12 at `sampleTable`, slot 3 (word 0xC002): the word becomes 0x4002. -/
theorem C12_stop_clears_only_active_witness :
    (Timer_Stop sampleTable 3 ⟨3, by decide⟩).TimeoutTick = 0x4002 ∧
    (Timer_Stop sampleTable 3 ⟨3, by decide⟩).TimeoutTick =
      (sampleTable ⟨3, by decide⟩).TimeoutTick &&& 0x7FFF ∧
    Timer_Stop (Timer_Stop sampleTable 3) 3 = Timer_Stop sampleTable 3 :=
  ⟨by decide, (C12_stop_clears_only_active sampleTable 3 (by decide)).1,
    (C12_stop_clears_only_active sampleTable 3 (by decide)).2.2.2.2.2.2⟩

/-- C13: for every table and valid `id < 5`, `Timer_Destroy(id)` sets the state word of
slot `id` to 0 whatever it was (`CREATED` and `ACTIVE` cleared, countdown 0) and changes
no other slot; the slot is then eligible for `Timer_Create`, which succeeds with an index
not above `id`, and with `id` itself when every lower slot is created. -/
theorem C13_destroy_clears_slot (tbl : TimerTable) (id : Nat) (hid : id < MAX_TIMERS)
    (cb : timer_handler_t) :
    (Timer_Destroy tbl id ⟨id, hid⟩).TimeoutTick = 0 ∧
    (Timer_Destroy tbl id ⟨id, hid⟩).TimeoutTick &&& TIMER_CREATED_MASK = 0 ∧
    (Timer_Destroy tbl id ⟨id, hid⟩).TimeoutTick &&& TIMER_ACTIVE_MASK = 0 ∧
    (Timer_Destroy tbl id ⟨id, hid⟩).TimeoutTick &&& TIMER_TIMEOUT_MASK = 0 ∧
    (∀ j : Fin MAX_TIMERS, j.val ≠ id → Timer_Destroy tbl id j = tbl j) ∧
    (Timer_Create (Timer_Destroy tbl id) cb).1 ≤ id ∧
    ((∀ j : Fin MAX_TIMERS, j.val < id → (tbl j).TimeoutTick &&& TIMER_CREATED_MASK ≠ 0) →
      (Timer_Create (Timer_Destroy tbl id) cb).1 = id) := by
  have hw : (Timer_Destroy tbl id ⟨id, hid⟩).TimeoutTick = 0 := by
    rw [Timer_Destroy_apply_self tbl ⟨id, hid⟩]
  have hfree : (Timer_Destroy tbl id ⟨id, hid⟩).TimeoutTick &&& TIMER_CREATED_MASK = 0 := by
    rw [hw]; exact Nat.zero_and _
  refine ⟨hw, hfree, ?_, ?_, ?_, ?_, ?_⟩
  · rw [hw]; exact Nat.zero_and _
  · rw [hw]; exact Nat.zero_and _
  · intro j hj; exact Timer_Destroy_apply_other tbl id j hj
  · exact Timer_Create_le_of_free _ cb ⟨id, hid⟩ hfree
  · intro hbelow
    rw [Timer_Create_first_free (Timer_Destroy tbl id) cb ⟨id, hid⟩ hfree]
    intro j hj
    rw [Timer_Destroy_apply_other tbl id j (Nat.ne_of_lt hj)]
    exact hbelow j hj

/-- C13 at `sampleTable`, slot 3 (created and active, countdown 2). -/
theorem C13_destroy_clears_slot_witness :
    (sampleTable ⟨3, by decide⟩).TimeoutTick = 0xC002 ∧
    (Timer_Destroy sampleTable 3 ⟨3, by decide⟩).TimeoutTick = 0 ∧
    (Timer_Create (Timer_Destroy sampleTable 3) 7).1 ≤ 3 :=
  ⟨by decide, (C13_destroy_clears_slot sampleTable 3 (by decide) 7).1,
    (C13_destroy_clears_slot sampleTable 3 (by decide) 7).2.2.2.2.2.1⟩

/-! ## Invariants of sequences of calls -/

theorem tickWord_SlotInv (w : Nat) (h : SlotInv w) : SlotInv (tickWord w) := by
  unfold SlotInv at *
  rw [tickWord_arith]
  split_ifs <;> omega

theorem Timer_Create_apply (tbl : TimerTable) (cb : timer_handler_t) (j : Fin MAX_TIMERS) :
    (Timer_Create tbl cb).2 j = tbl j ∨
    ((Timer_Create tbl cb).1 = j.val ∧
      (Timer_Create tbl cb).2 j = { TimeoutTick := TIMER_CREATED_MASK, TimerHandler := cb }) := by
  rcases Timer_Create_cases tbl cb with ⟨_, hc⟩ | ⟨i, _, _, hc⟩
  · left; rw [hc]
  · rw [hc]
    by_cases hj : j = i
    · right
      subst hj
      exact ⟨rfl, by simp only [Function.update_same]⟩
    · left
      exact Function.update_noteq hj _ _

theorem applyOp_SlotInv (tbl : TimerTable) (op : Op)
    (hinv : ∀ i : Fin MAX_TIMERS, SlotInv (tbl i).TimeoutTick)
    (hok : startOk tbl op = true) :
    ∀ i : Fin MAX_TIMERS, SlotInv (applyOp tbl op i).TimeoutTick := by
  intro i
  cases op with
  | init =>
    show SlotInv 0
    unfold SlotInv; omega
  | create cb =>
    show SlotInv ((Timer_Create tbl cb).2 i).TimeoutTick
    rcases Timer_Create_apply tbl cb i with h | ⟨_, h⟩
    · rw [h]; exact hinv i
    · rw [h]
      show SlotInv 0x4000
      unfold SlotInv; omega
  | destroy id =>
    show SlotInv (Timer_Destroy tbl id i).TimeoutTick
    by_cases hi : i.val = id
    · subst hi
      rw [Timer_Destroy_apply_self]
      show SlotInv 0
      unfold SlotInv; omega
    · rw [Timer_Destroy_apply_other tbl id i hi]; exact hinv i
  | start id t =>
    show SlotInv (Timer_Start tbl id t i).TimeoutTick
    by_cases hi : i.val = id
    · subst hi
      have hlt := i.isLt
      simp only [startOk, dif_pos hlt, Bool.and_eq_true, decide_eq_true_eq] at hok
      obtain ⟨hcr, hcd⟩ := hok
      have hw := (hinv i).1
      have hnew : (Timer_Start tbl i.val t i).TimeoutTick =
          (tbl i).TimeoutTick ||| 0x8000 ||| (t &&& 0x3FFF) := by
        rw [Timer_Start_apply_self]
        exact start_word _ t hw
      have hkeep := start_word_keeps_created (tbl i).TimeoutTick t
      rw [← hnew] at hkeep
      have hcr2 : (Timer_Start tbl i.val t i).TimeoutTick &&& 0x4000 ≠ 0 := by
        rw [hkeep]; exact hcr
      have hlt2 : (Timer_Start tbl i.val t i).TimeoutTick < 65536 := by
        rw [Timer_Start_apply_self]
        exact Nat.mod_lt _ (by norm_num)
      rw [and_created_ne_zero] at hcr2
      have hcd2 : (Timer_Start tbl i.val t ⟨i.val, hlt⟩).TimeoutTick % 16384 ≠ 0 := by
        rw [← and_timeout_mask]; exact hcd
      exact ⟨hlt2, fun _ => ⟨hcr2, hcd2⟩⟩
    · rw [Timer_Start_apply_other tbl id t i hi]; exact hinv i
  | stop id =>
    show SlotInv (Timer_Stop tbl id i).TimeoutTick
    by_cases hi : i.val = id
    · subst hi
      rw [Timer_Stop_apply_self]
      have := hinv i
      unfold SlotInv at *
      simp only
      omega
    · rw [Timer_Stop_apply_other tbl id i hi]; exact hinv i
  | update =>
    show SlotInv ((Timer_Update tbl).1 i).TimeoutTick
    rw [Timer_Update_fst]
    exact tickWord_SlotInv _ (hinv i)

theorem run_SlotInv (ops : List Op) (tbl : TimerTable)
    (hinv : ∀ i : Fin MAX_TIMERS, SlotInv (tbl i).TimeoutTick)
    (hok : startsOk tbl ops = true) :
    ∀ i : Fin MAX_TIMERS, SlotInv (run tbl ops i).TimeoutTick := by
  induction ops generalizing tbl with
  | nil => exact hinv
  | cons op ops ih =>
    simp only [startsOk, Bool.and_eq_true] at hok
    exact ih (applyOp tbl op) (applyOp_SlotInv tbl op hinv hok.1) hok.2

/-- C14 (as stated) fails: after `Timer_Init`, the single call `Timer_Start(0, 5)` leaves
slot 0 with word 0x8005, `ACTIVE` set and `CREATED` clear; and after `Timer_Init`,
`Timer_Create`, `Timer_Start(0, 0)`, `Timer_Update` slot 0 has word 0xBFFF, again `ACTIVE`
without `CREATED`. -/
theorem C14_active_without_created :
    ((run (Timer_Init sampleTable) [Op.start 0 5] ⟨0, by decide⟩).TimeoutTick = 0x8005 ∧
      (run (Timer_Init sampleTable) [Op.start 0 5] ⟨0, by decide⟩).TimeoutTick &&&
        TIMER_ACTIVE_MASK ≠ 0 ∧
      (run (Timer_Init sampleTable) [Op.start 0 5] ⟨0, by decide⟩).TimeoutTick &&&
        TIMER_CREATED_MASK = 0) ∧
    ((run (Timer_Init sampleTable) [Op.create 7, Op.start 0 0, Op.update]
        ⟨0, by decide⟩).TimeoutTick = 0xBFFF ∧
      (run (Timer_Init sampleTable) [Op.create 7, Op.start 0 0, Op.update]
        ⟨0, by decide⟩).TimeoutTick &&& TIMER_ACTIVE_MASK ≠ 0 ∧
      (run (Timer_Init sampleTable) [Op.create 7, Op.start 0 0, Op.update]
        ⟨0, by decide⟩).TimeoutTick &&& TIMER_CREATED_MASK = 0) := by
  decide

/-- C14 (amended): in every table reached from `Timer_Init` by a finite sequence of
`Timer_Init`, `Timer_Create`, `Timer_Destroy`, `Timer_Start`, `Timer_Stop` and
`Timer_Update` calls in which each `Timer_Start` with a valid id is applied to a slot that
has `CREATED` set and leaves a countdown other than 0 in it, every slot whose `ACTIVE`
bit is set also has its `CREATED` bit set. -/
theorem C14_active_implies_created_disciplined (old : TimerTable) (ops : List Op)
    (hok : startsOk (Timer_Init old) ops = true) (i : Fin MAX_TIMERS)
    (hact : (run (Timer_Init old) ops i).TimeoutTick &&& TIMER_ACTIVE_MASK ≠ 0) :
    (run (Timer_Init old) ops i).TimeoutTick &&& TIMER_CREATED_MASK ≠ 0 := by
  have h0 : ∀ j : Fin MAX_TIMERS, SlotInv (Timer_Init old j).TimeoutTick := by
    intro j
    show SlotInv 0
    unfold SlotInv; omega
  have hinv := run_SlotInv ops (Timer_Init old) h0 hok i
  rw [and_created_ne_zero]
  rw [and_active_ne_zero] at hact
  exact (hinv.2 hact).1

/-- C14 (amended) at a concrete sequence: create, start with 3, one tick, stop, restart
with timeout 0 on the residual countdown 2; slot 0 ends created and active. -/
theorem C14_active_implies_created_disciplined_witness :
    startsOk (Timer_Init sampleTable)
      [Op.create 7, Op.start 0 3, Op.update, Op.stop 0, Op.start 0 0] = true ∧
    (run (Timer_Init sampleTable)
      [Op.create 7, Op.start 0 3, Op.update, Op.stop 0, Op.start 0 0]
        ⟨0, by decide⟩).TimeoutTick = 0xC002 ∧
    (run (Timer_Init sampleTable)
      [Op.create 7, Op.start 0 3, Op.update, Op.stop 0, Op.start 0 0]
        ⟨0, by decide⟩).TimeoutTick &&& TIMER_CREATED_MASK ≠ 0 :=
  ⟨by decide, by decide,
    C14_active_implies_created_disciplined sampleTable
      [Op.create 7, Op.start 0 3, Op.update, Op.stop 0, Op.start 0 0] (by decide)
      ⟨0, by decide⟩ (by decide)⟩

/-- C15: evaluation of the code on a restart after `Timer_Stop`.  After `Timer_Init`,
`Timer_Create(7)` (id 0), `Timer_Start(0, 5)`, one `Timer_Update` and `Timer_Stop(0)` the
word is 0x4004 (residual countdown 4); `Timer_Start(0, 3)` then gives 0xC007: the
countdown is `4 ||| 3 = 7`, not 3, tick 3 calls nothing and the handler is called on
tick 7. -/
theorem C15_restart_merges_residual :
    (run (Timer_Init sampleTable) [Op.create 7, Op.start 0 5, Op.update, Op.stop 0]
      ⟨0, by decide⟩).TimeoutTick = 0x4004 ∧
    (run (Timer_Init sampleTable)
      [Op.create 7, Op.start 0 5, Op.update, Op.stop 0, Op.start 0 3]
      ⟨0, by decide⟩).TimeoutTick = 0xC007 ∧
    (run (Timer_Init sampleTable)
      [Op.create 7, Op.start 0 5, Op.update, Op.stop 0, Op.start 0 3]
      ⟨0, by decide⟩).TimeoutTick &&& TIMER_TIMEOUT_MASK = 7 ∧
    firedOn 3 (run (Timer_Init sampleTable)
      [Op.create 7, Op.start 0 5, Op.update, Op.stop 0, Op.start 0 3]) = [] ∧
    firedOn 7 (run (Timer_Init sampleTable)
      [Op.create 7, Op.start 0 5, Op.update, Op.stop 0, Op.start 0 3]) = [⟨7, 0⟩] := by
  decide

theorem start_word_active (w x : Nat) : (w ||| 0x8000 ||| x) / 32768 % 2 = 1 := by
  have h := testBit_iff (w ||| 0x8000 ||| x) 15
  norm_num at h
  rw [← h]
  have e : Nat.testBit 0x8000 15 = true := by decide
  simp [Nat.testBit_or, e]

/-- C16 (as stated) fails: after `Timer_Init`, `Timer_Start(0, 3)` on the slot that was
never created gives word 0x8003; the first `Timer_Update` leaves it at 0x8003 (no
decrement) and ticks 1 to 3 call no handler. -/
theorem C16_start_uncreated_does_not_fire :
    (Timer_Init sampleTable ⟨0, by decide⟩).TimeoutTick &&& TIMER_CREATED_MASK = 0 ∧
    (Timer_Start (Timer_Init sampleTable) 0 3 ⟨0, by decide⟩).TimeoutTick = 0x8003 ∧
    (tableAfter 1 (Timer_Start (Timer_Init sampleTable) 0 3) ⟨0, by decide⟩).TimeoutTick
      = 0x8003 ∧
    firedOn 1 (Timer_Start (Timer_Init sampleTable) 0 3) = [] ∧
    firedOn 2 (Timer_Start (Timer_Init sampleTable) 0 3) = [] ∧
    firedOn 3 (Timer_Start (Timer_Init sampleTable) 0 3) = [] := by
  decide

/-- C16 (amended): for a table of 16-bit words and a valid `id < 5` whose slot does not
have `CREATED` set, `Timer_Start(id, T)` with `1 ≤ T ≤ 16383` leaves the slot with
`ACTIVE` set and `CREATED` still clear; `Timer_Update` never decrements it (the slot is
the same after any number of ticks) and no tick calls a handler for `id`. -/
theorem C16_start_uncreated_stays_idle (tbl : TimerTable) (hwf : WellFormed tbl)
    (id : Nat) (hid : id < MAX_TIMERS) (T : Nat) (_hT1 : 1 ≤ T) (_hT2 : T ≤ 16383)
    (hnc : (tbl ⟨id, hid⟩).TimeoutTick &&& TIMER_CREATED_MASK = 0) :
    (Timer_Start tbl id T ⟨id, hid⟩).TimeoutTick &&& TIMER_ACTIVE_MASK ≠ 0 ∧
    (Timer_Start tbl id T ⟨id, hid⟩).TimeoutTick &&& TIMER_CREATED_MASK = 0 ∧
    (∀ n : Nat, tableAfter n (Timer_Start tbl id T) ⟨id, hid⟩ =
      Timer_Start tbl id T ⟨id, hid⟩) ∧
    (∀ k : Nat, ¬ Fires k (Timer_Start tbl id T) id) := by
  have hnew : (Timer_Start tbl id T ⟨id, hid⟩).TimeoutTick =
      (tbl ⟨id, hid⟩).TimeoutTick ||| 0x8000 ||| (T &&& 0x3FFF) := by
    rw [Timer_Start_apply_self tbl ⟨id, hid⟩ T]
    exact start_word _ T (hwf ⟨id, hid⟩)
  have hcr : (Timer_Start tbl id T ⟨id, hid⟩).TimeoutTick &&& TIMER_CREATED_MASK = 0 := by
    rw [hnew]
    show _ &&& 0x4000 = 0
    rw [start_word_keeps_created]
    exact hnc
  have hidle : (Timer_Start tbl id T ⟨id, hid⟩).TimeoutTick / 16384 % 4 ≠ 3 := by
    have := (and_created_ne_zero (Timer_Start tbl id T ⟨id, hid⟩).TimeoutTick).not.mp
      (not_not.mpr hcr)
    omega
  obtain ⟨hnf, hsame⟩ := idle_slot_stays (Timer_Start tbl id T) ⟨id, hid⟩ hidle
  refine ⟨?_, hcr, ?_, hnf⟩
  · rw [and_active_ne_zero, hnew]
    exact start_word_active _ _
  · intro n
    rw [tableAfter_apply, tickWord_iterate_idle _ _ hidle]

/-- C16 (amended) at the table after `Timer_Init`, `id = 0`, `T = 3`. -/
theorem C16_start_uncreated_stays_idle_witness :
    WellFormed (Timer_Init sampleTable) ∧
    (Timer_Start (Timer_Init sampleTable) 0 3 ⟨0, by decide⟩).TimeoutTick &&&
      TIMER_ACTIVE_MASK ≠ 0 ∧
    (∀ k : Nat, ¬ Fires k (Timer_Start (Timer_Init sampleTable) 0 3) 0) :=
  ⟨by decide,
    (C16_start_uncreated_stays_idle (Timer_Init sampleTable) (by decide) 0 (by decide) 3
      (by decide) (by decide) (by decide)).1,
    (C16_start_uncreated_stays_idle (Timer_Init sampleTable) (by decide) 0 (by decide) 3
      (by decide) (by decide) (by decide)).2.2.2⟩

/-- C17: for a slot `id` that is created, not active and has countdown 0 (16-bit word,
so exactly 0x4000) and a timeout `t` with `t % 16384 = 0`: `Timer_Start(id, t)` gives
word 0xC000; the next `Timer_Update` turns it into 0xBFFF (`CREATED` cleared, `ACTIVE`
set, countdown 16383) without a handler call for `id`; every later `Timer_Update` leaves
0xBFFF in place and none ever fires `id`; and `Timer_Create` then sees index `id` as free:
it succeeds with an index not above `id`, and with `id` when all lower slots are created. -/
theorem C17_zero_timeout_borrows_created (tbl : TimerTable) (hwf : WellFormed tbl)
    (id : Nat) (hid : id < MAX_TIMERS) (t : Nat) (ht : t % 16384 = 0)
    (hcr : (tbl ⟨id, hid⟩).TimeoutTick &&& TIMER_CREATED_MASK ≠ 0)
    (hna : (tbl ⟨id, hid⟩).TimeoutTick &&& TIMER_ACTIVE_MASK = 0)
    (hc0 : (tbl ⟨id, hid⟩).TimeoutTick &&& TIMER_TIMEOUT_MASK = 0) :
    (Timer_Start tbl id t ⟨id, hid⟩).TimeoutTick = 0xC000 ∧
    ((Timer_Update (Timer_Start tbl id t)).1 ⟨id, hid⟩).TimeoutTick = 0xBFFF ∧
    (0xBFFF &&& TIMER_CREATED_MASK = 0 ∧ 0xBFFF &&& TIMER_ACTIVE_MASK ≠ 0 ∧
      0xBFFF &&& TIMER_TIMEOUT_MASK = 16383) ∧
    (∀ c ∈ (Timer_Update (Timer_Start tbl id t)).2, c.arg ≠ id) ∧
    (∀ n : Nat, 1 ≤ n →
      (tableAfter n (Timer_Start tbl id t) ⟨id, hid⟩).TimeoutTick = 0xBFFF) ∧
    (∀ k : Nat, ¬ Fires k (Timer_Start tbl id t) id) ∧
    (∀ (n : Nat) (cb : timer_handler_t), 1 ≤ n →
      (Timer_Create (tableAfter n (Timer_Start tbl id t)) cb).1 ≤ id ∧
      ((∀ j : Fin MAX_TIMERS, j.val < id →
          (tableAfter n (Timer_Start tbl id t) j).TimeoutTick &&& TIMER_CREATED_MASK ≠ 0) →
        (Timer_Create (tableAfter n (Timer_Start tbl id t)) cb).1 = id)) := by
  have hw : (tbl ⟨id, hid⟩).TimeoutTick = 0x4000 := by
    have h1 := (and_created_ne_zero _).mp hcr
    have h2 := (and_active_ne_zero (tbl ⟨id, hid⟩).TimeoutTick).not.mp (not_not.mpr hna)
    have h3 : (tbl ⟨id, hid⟩).TimeoutTick % 16384 = 0 := by
      rw [← and_timeout_mask]; exact hc0
    have h4 := hwf ⟨id, hid⟩
    omega
  have hs : (Timer_Start tbl id t ⟨id, hid⟩).TimeoutTick = 0xC000 := by
    rw [Timer_Start_apply_self tbl ⟨id, hid⟩ t, hw]
    simp only [start_word_created, ht]
  have hstep : tickWord 0xC000 = 0xBFFF := by decide
  have hidle : (0xBFFF : Nat) / 16384 % 4 ≠ 3 := by decide
  have hafter : ∀ n : Nat, 1 ≤ n →
      (tableAfter n (Timer_Start tbl id t) ⟨id, hid⟩).TimeoutTick = 0xBFFF := by
    intro n hn
    obtain ⟨m, rfl⟩ : ∃ m, n = m + 1 := ⟨n - 1, by omega⟩
    rw [tableAfter_apply, hs, Function.iterate_succ_apply, hstep]
    exact tickWord_iterate_idle m _ hidle
  have hnofire : ∀ k : Nat, ¬ Fires k (Timer_Start tbl id t) id := by
    intro k
    cases k with
    | zero => exact not_Fires_zero _ _
    | succ k =>
      have := Fires_succ_iff k (Timer_Start tbl id t) ⟨id, hid⟩
      simp only at this
      rw [this, hs, expires_iff]
      cases k with
      | zero =>
        simp only [Function.iterate_zero, id_eq]
        omega
      | succ k =>
        rw [Function.iterate_succ_apply, hstep, tickWord_iterate_idle _ _ hidle]
        omega
  refine ⟨hs, ?_, by decide, ?_, hafter, hnofire, ?_⟩
  · have := hafter 1 (le_refl _)
    exact this
  · intro c hc harg
    exact hnofire 1 ⟨c, hc, harg⟩
  · intro n cb hn
    have hfree : (tableAfter n (Timer_Start tbl id t) ⟨id, hid⟩).TimeoutTick &&&
        TIMER_CREATED_MASK = 0 := by
      rw [hafter n hn]; decide
    refine ⟨Timer_Create_le_of_free _ cb ⟨id, hid⟩ hfree, ?_⟩
    intro hbelow
    rw [Timer_Create_first_free _ cb ⟨id, hid⟩ hfree (fun j hj => hbelow j hj)]

/-- C17 at the table after `Timer_Init` and `Timer_Create(7)` (id 0), with `t = 16384`. -/
theorem C17_zero_timeout_borrows_created_witness :
    WellFormed (Timer_Create (Timer_Init sampleTable) 7).2 ∧
    ((Timer_Update (Timer_Start (Timer_Create (Timer_Init sampleTable) 7).2 0 16384)).1
      ⟨0, by decide⟩).TimeoutTick = 0xBFFF ∧
    (Timer_Create
      (tableAfter 4 (Timer_Start (Timer_Create (Timer_Init sampleTable) 7).2 0 16384)) 8).1 ≤ 0 :=
  ⟨by decide,
    (C17_zero_timeout_borrows_created (Timer_Create (Timer_Init sampleTable) 7).2 (by decide)
      0 (by decide) 16384 (by decide) (by decide) (by decide) (by decide)).2.1,
    ((C17_zero_timeout_borrows_created (Timer_Create (Timer_Init sampleTable) 7).2 (by decide)
      0 (by decide) 16384 (by decide) (by decide) (by decide) (by decide)).2.2.2.2.2.2
        4 8 (by decide)).1⟩

/-! ## The handler stored in a created slot -/

theorem runRecorded_fst (ops : List Op)
    (st : TimerTable × (Fin MAX_TIMERS → Option timer_handler_t)) :
    (runRecorded st ops).1 = run st.1 ops := by
  induction ops generalizing st with
  | nil => rfl
  | cons op ops ih =>
    rw [runRecorded, ih]
    rfl

theorem step_RecInv (st : TimerTable × (Fin MAX_TIMERS → Option timer_handler_t))
    (op : Op) (hinv : RecInv st) (hnn : ∀ cb, op = Op.create cb → cb ≠ 0) :
    RecInv (applyOp st.1 op, recordOp st.1 st.2 op) := by
  intro i
  obtain ⟨hlt, hrec⟩ := hinv i
  cases op with
  | init =>
    refine ⟨by show (0 : Nat) < 65536; omega, ?_⟩
    intro h
    have : (0 : Nat) / 16384 % 2 = 1 := h
    omega
  | create cb =>
    have hcb := hnn cb rfl
    show ((Timer_Create st.1 cb).2 i).TimeoutTick < 65536 ∧
      (((Timer_Create st.1 cb).2 i).TimeoutTick / 16384 % 2 = 1 →
        recordOp st.1 st.2 (Op.create cb) i = some ((Timer_Create st.1 cb).2 i).TimerHandler ∧
        ((Timer_Create st.1 cb).2 i).TimerHandler ≠ 0)
    rcases Timer_Create_cases st.1 cb with ⟨_, hc⟩ | ⟨i0, _, _, hc⟩
    · have hr : recordOp st.1 st.2 (Op.create cb) = st.2 := by
        simp only [recordOp, hc]
        rw [dif_neg (by decide)]
      rw [hr, hc]
      exact ⟨hlt, hrec⟩
    · have hr : recordOp st.1 st.2 (Op.create cb) = Function.update st.2 i0 (some cb) := by
        simp only [recordOp, hc]
        rw [dif_pos i0.isLt]
      rw [hr, hc]
      by_cases hi : i = i0
      · subst hi
        simp only [Function.update_same]
        exact ⟨by norm_num, fun _ => ⟨trivial, hcb⟩⟩
      · simp only [Function.update_noteq hi]
        exact ⟨hlt, hrec⟩
  | destroy id =>
    show (Timer_Destroy st.1 id i).TimeoutTick < 65536 ∧
      ((Timer_Destroy st.1 id i).TimeoutTick / 16384 % 2 = 1 →
        st.2 i = some (Timer_Destroy st.1 id i).TimerHandler ∧
        (Timer_Destroy st.1 id i).TimerHandler ≠ 0)
    by_cases hi : i.val = id
    · subst hi
      rw [Timer_Destroy_apply_self]
      refine ⟨by show (0 : Nat) < 65536; omega, ?_⟩
      intro h
      have : (0 : Nat) / 16384 % 2 = 1 := h
      omega
    · rw [Timer_Destroy_apply_other st.1 id i hi]
      exact ⟨hlt, hrec⟩
  | start id t =>
    show (Timer_Start st.1 id t i).TimeoutTick < 65536 ∧
      ((Timer_Start st.1 id t i).TimeoutTick / 16384 % 2 = 1 →
        st.2 i = some (Timer_Start st.1 id t i).TimerHandler ∧
        (Timer_Start st.1 id t i).TimerHandler ≠ 0)
    by_cases hi : i.val = id
    · subst hi
      have hnew : (Timer_Start st.1 i.val t i).TimeoutTick =
          (st.1 i).TimeoutTick ||| 0x8000 ||| (t &&& 0x3FFF) := by
        rw [Timer_Start_apply_self]
        exact start_word _ t hlt
      have hkeep := start_word_keeps_created (st.1 i).TimeoutTick t
      rw [← hnew] at hkeep
      have hh : (Timer_Start st.1 i.val t i).TimerHandler = (st.1 i).TimerHandler := by
        rw [Timer_Start_apply_self]
      have hlt2 : (Timer_Start st.1 i.val t i).TimeoutTick < 65536 := by
        rw [Timer_Start_apply_self]
        exact Nat.mod_lt _ (by norm_num)
      refine ⟨hlt2, ?_⟩
      intro hc
      rw [hh]
      apply hrec
      rw [← and_created_ne_zero, ← hkeep, and_created_ne_zero]
      exact hc
    · rw [Timer_Start_apply_other st.1 id t i hi]
      exact ⟨hlt, hrec⟩
  | stop id =>
    show (Timer_Stop st.1 id i).TimeoutTick < 65536 ∧
      ((Timer_Stop st.1 id i).TimeoutTick / 16384 % 2 = 1 →
        st.2 i = some (Timer_Stop st.1 id i).TimerHandler ∧
        (Timer_Stop st.1 id i).TimerHandler ≠ 0)
    by_cases hi : i.val = id
    · subst hi
      rw [Timer_Stop_apply_self]
      simp only
      refine ⟨by omega, ?_⟩
      intro hc
      exact hrec (by omega)
    · rw [Timer_Stop_apply_other st.1 id i hi]
      exact ⟨hlt, hrec⟩
  | update =>
    show ((Timer_Update st.1).1 i).TimeoutTick < 65536 ∧
      (((Timer_Update st.1).1 i).TimeoutTick / 16384 % 2 = 1 →
        st.2 i = some ((Timer_Update st.1).1 i).TimerHandler ∧
        ((Timer_Update st.1).1 i).TimerHandler ≠ 0)
    rw [Timer_Update_fst]
    show tickWord (st.1 i).TimeoutTick < 65536 ∧
      (tickWord (st.1 i).TimeoutTick / 16384 % 2 = 1 →
        st.2 i = some (st.1 i).TimerHandler ∧ (st.1 i).TimerHandler ≠ 0)
    rw [tickWord_arith]
    split_ifs
    · exact ⟨by omega, fun _ => hrec (by omega)⟩
    · exact ⟨by omega, fun _ => hrec (by omega)⟩
    · exact ⟨hlt, hrec⟩

theorem runRecorded_RecInv (ops : List Op)
    (st : TimerTable × (Fin MAX_TIMERS → Option timer_handler_t))
    (hinv : RecInv st) (hnn : createsNonNull ops = true) :
    RecInv (runRecorded st ops) := by
  induction ops generalizing st with
  | nil => exact hinv
  | cons op ops ih =>
    rw [runRecorded]
    cases op with
    | create cb =>
      simp only [createsNonNull, Bool.and_eq_true, decide_eq_true_eq] at hnn
      apply ih _ (step_RecInv st _ hinv ?_) hnn.2
      intro cb2 h
      cases h
      exact hnn.1
    | init => exact ih _ (step_RecInv st _ hinv (fun _ h => by cases h)) hnn
    | destroy id => exact ih _ (step_RecInv st _ hinv (fun _ h => by cases h)) hnn
    | start id t => exact ih _ (step_RecInv st _ hinv (fun _ h => by cases h)) hnn
    | stop id => exact ih _ (step_RecInv st _ hinv (fun _ h => by cases h)) hnn
    | update => exact ih _ (step_RecInv st _ hinv (fun _ h => by cases h)) hnn

/-- C18: in every table reached from `Timer_Init` by a finite sequence of API calls in
which every `Timer_Create` is passed a handler other than `NULL`, each slot with `CREATED`
set holds exactly the handler passed to the most recent `Timer_Create` that returned its
index; hence a `Timer_Update` in that table never calls a `NULL` handler, and whenever it
fires slot `i` it calls that handler with argument `i`. -/
theorem C18_created_slot_holds_last_handler (old : TimerTable) (ops : List Op)
    (hnn : createsNonNull ops = true) :
    (runRecorded (Timer_Init old, fun _ => none) ops).1 = run (Timer_Init old) ops ∧
    (∀ i : Fin MAX_TIMERS,
      (run (Timer_Init old) ops i).TimeoutTick &&& TIMER_CREATED_MASK ≠ 0 →
        (runRecorded (Timer_Init old, fun _ => none) ops).2 i =
            some (run (Timer_Init old) ops i).TimerHandler ∧
        (run (Timer_Init old) ops i).TimerHandler ≠ 0) ∧
    (∀ c ∈ (Timer_Update (run (Timer_Init old) ops)).2,
      c.handler ≠ 0 ∧
      ∃ i : Fin MAX_TIMERS, c.arg = i.val ∧
        (runRecorded (Timer_Init old, fun _ => none) ops).2 i = some c.handler) := by
  have h0 : RecInv (Timer_Init old, fun _ => none) := by
    intro i
    refine ⟨by show (0 : Nat) < 65536; omega, ?_⟩
    intro h
    have : (0 : Nat) / 16384 % 2 = 1 := h
    omega
  have hinv := runRecorded_RecInv ops _ h0 hnn
  have hfst := runRecorded_fst ops (Timer_Init old, fun _ => none)
  have hcr : ∀ i : Fin MAX_TIMERS,
      (run (Timer_Init old) ops i).TimeoutTick / 16384 % 2 = 1 →
        (runRecorded (Timer_Init old, fun _ => none) ops).2 i =
            some (run (Timer_Init old) ops i).TimerHandler ∧
        (run (Timer_Init old) ops i).TimerHandler ≠ 0 := by
    intro i hc
    have := (hinv i).2
    rw [hfst] at this
    exact this hc
  refine ⟨hfst, ?_, ?_⟩
  · intro i hc
    exact hcr i ((and_created_ne_zero _).mp hc)
  · intro c hc
    rw [mem_Timer_Update_snd] at hc
    obtain ⟨i, he, rfl⟩ := hc
    rw [expires_iff] at he
    have := hcr i (by omega)
    exact ⟨this.2, i, rfl, this.1⟩

/-- C18 at a concrete sequence: two creates (handlers 7 and 8), timer 0 destroyed and
created again with handler 9, then started with timeout 1: the next `Timer_Update` calls
handler 9 with argument 0. -/
theorem C18_created_slot_holds_last_handler_witness :
    createsNonNull [Op.create 7, Op.create 8, Op.destroy 0, Op.create 9, Op.start 0 1] = true ∧
    (Timer_Update (run (Timer_Init sampleTable)
      [Op.create 7, Op.create 8, Op.destroy 0, Op.create 9, Op.start 0 1])).2 = [⟨9, 0⟩] ∧
    (∀ c ∈ (Timer_Update (run (Timer_Init sampleTable)
        [Op.create 7, Op.create 8, Op.destroy 0, Op.create 9, Op.start 0 1])).2,
      c.handler ≠ 0 ∧
      ∃ i : Fin MAX_TIMERS, c.arg = i.val ∧
        (runRecorded (Timer_Init sampleTable, fun _ => none)
          [Op.create 7, Op.create 8, Op.destroy 0, Op.create 9, Op.start 0 1]).2 i =
            some c.handler) :=
  ⟨by decide, by decide,
    (C18_created_slot_holds_last_handler sampleTable
      [Op.create 7, Op.create 8, Op.destroy 0, Op.create 9, Op.start 0 1] (by decide)).2.2⟩

/-! ## Restarting an expired timer -/

/-- A slot in the state `Timer_Create` leaves (word 0x4000), started with `T`: it fires on
tick `T` only, with its stored handler, and after tick `T` it is in that state again. -/
theorem fresh_start_cycle (tbl : TimerTable) (i : Fin MAX_TIMERS) (h : timer_handler_t)
    (T : Nat) (hT1 : 1 ≤ T) (hT2 : T ≤ 16383)
    (hs : tbl i = { TimeoutTick := TIMER_CREATED_MASK, TimerHandler := h }) :
    (∀ k, Fires k (Timer_Start tbl i.val T) i.val ↔ k = T) ∧
    (firedOn T (Timer_Start tbl i.val T)).filter (fun c => decide (c.arg = i.val)) =
      [{ handler := h, arg := i.val }] ∧
    tableAfter T (Timer_Start tbl i.val T) i =
      { TimeoutTick := TIMER_CREATED_MASK, TimerHandler := h } := by
  have hslot : Timer_Start tbl i.val T i =
      { TimeoutTick := 0xC000 + T, TimerHandler := h } := by
    rw [Timer_Start_apply_self, hs]
    simp only [TIMER_CREATED_MASK, start_word_created]
    rw [Nat.mod_eq_of_lt (by omega)]
  have hw := congrArg timer_t.TimeoutTick hslot
  have hh := congrArg timer_t.TimerHandler hslot
  simp only at hw hh
  refine ⟨countdown_fires _ i T hT1 hT2 hw, ?_, ?_⟩
  · obtain ⟨j, rfl⟩ : ∃ j, T = j + 1 := ⟨T - 1, by omega⟩
    rw [firedOn_succ_filter, hw, hh, tickWord_iterate_running (j + 1) j (by omega) (by omega)]
    have : expires (0xC000 + (j + 1 - j)) = true := by
      rw [expires_iff]; omega
    rw [if_pos this]
  · rw [tableAfter_apply, hw, hh, tickWord_iterate_expired T T hT1 (by omega) (le_refl _)]

theorem restartCycles_slot (Ts : List Nat) (tbl : TimerTable) (i : Fin MAX_TIMERS)
    (h : timer_handler_t) (hTs : ∀ T ∈ Ts, 1 ≤ T ∧ T ≤ 16383)
    (hs : tbl i = { TimeoutTick := TIMER_CREATED_MASK, TimerHandler := h }) :
    restartCycles i.val tbl Ts i = { TimeoutTick := TIMER_CREATED_MASK, TimerHandler := h } := by
  induction Ts generalizing tbl with
  | nil => exact hs
  | cons T Ts ih =>
    rw [restartCycles]
    have hT := hTs T (List.mem_cons_self _ _)
    exact ih _ (fun T2 h2 => hTs T2 (List.mem_cons_of_mem _ h2))
      (fresh_start_cycle tbl i h T hT.1 hT.2 hs).2.2

/-- C19: when a created and active timer `i` expires inside `Timer_Update` (the call
fires `i`), its slot is left with word exactly 0x4000 and the handler unchanged, the state
`Timer_Create` leaves a slot in.  So after any number of restart cycles (`Timer_Start`
with a timeout in `1 .. 16383`, run to its expiry) the slot is in that state again, and
a further `Timer_Start(i, T2)` with `1 ≤ T2 ≤ 16383` makes the same handler fire exactly
on the `T2`-th following `Timer_Update`, and on no other. -/
theorem C19_expired_timer_restarts (tbl : TimerTable) (i : Fin MAX_TIMERS)
    (hfire : ∃ c ∈ (Timer_Update tbl).2, c.arg = i.val)
    (Ts : List Nat) (hTs : ∀ T ∈ Ts, 1 ≤ T ∧ T ≤ 16383)
    (T2 : Nat) (hT1 : 1 ≤ T2) (hT2 : T2 ≤ 16383) :
    (Timer_Update tbl).1 i =
      { TimeoutTick := 0x4000, TimerHandler := (tbl i).TimerHandler } ∧
    (∀ cb : timer_handler_t, (tbl i).TimerHandler = cb →
      (Timer_Update tbl).1 i = { TimeoutTick := TIMER_CREATED_MASK, TimerHandler := cb }) ∧
    restartCycles i.val (Timer_Update tbl).1 Ts i =
      { TimeoutTick := 0x4000, TimerHandler := (tbl i).TimerHandler } ∧
    (∀ k, Fires k (Timer_Start (restartCycles i.val (Timer_Update tbl).1 Ts) i.val T2) i.val ↔
      k = T2) ∧
    (firedOn T2 (Timer_Start (restartCycles i.val (Timer_Update tbl).1 Ts) i.val T2)).filter
        (fun c => decide (c.arg = i.val)) =
      [{ handler := (tbl i).TimerHandler, arg := i.val }] := by
  have hexp : expires (tbl i).TimeoutTick = true := by
    obtain ⟨c, hc, harg⟩ := hfire
    rw [mem_Timer_Update_snd] at hc
    obtain ⟨j, he, rfl⟩ := hc
    have : j = i := Fin.ext harg
    subst this
    exact he
  have hpost : (Timer_Update tbl).1 i =
      { TimeoutTick := TIMER_CREATED_MASK, TimerHandler := (tbl i).TimerHandler } := by
    rw [Timer_Update_fst]
    rw [expires_iff] at hexp
    show ({ TimeoutTick := tickWord _, TimerHandler := _ } : timer_t) = _
    rw [tickWord_arith, if_pos hexp.1, if_pos hexp.2]
    have : ((tbl i).TimeoutTick + 65535) % 65536 % 32768 = TIMER_CREATED_MASK := by
      simp only [TIMER_CREATED_MASK]
      omega
    rw [this]
  have hcyc := restartCycles_slot Ts _ i _ hTs hpost
  obtain ⟨f1, f2, _⟩ := fresh_start_cycle _ i _ T2 hT1 hT2 hcyc
  exact ⟨hpost, fun cb hcb => hcb ▸ hpost, hcyc, f1, f2⟩

/-- C19 at `sampleTable` after one tick (slot 3 then holds 0xC001, handler 11): the next
`Timer_Update` fires it; after restart cycles with timeouts 2 and 1, `Timer_Start(3, 3)`
makes handler 11 fire on the third tick. -/
theorem C19_expired_timer_restarts_witness :
    (Timer_Update (Timer_Update sampleTable).1).2 = [⟨11, 3⟩] ∧
    ((Timer_Update sampleTable).1 ⟨3, by decide⟩).TimerHandler = 11 ∧
    (firedOn 3 (Timer_Start (restartCycles (⟨3, by decide⟩ : Fin MAX_TIMERS).val
        (Timer_Update (Timer_Update sampleTable).1).1 [2, 1])
          (⟨3, by decide⟩ : Fin MAX_TIMERS).val 3)).filter
        (fun c => decide (c.arg = (⟨3, by decide⟩ : Fin MAX_TIMERS).val)) =
      [{ handler := ((Timer_Update sampleTable).1 ⟨3, by decide⟩).TimerHandler,
         arg := (⟨3, by decide⟩ : Fin MAX_TIMERS).val }] :=
  ⟨by decide, by decide,
    (C19_expired_timer_restarts (Timer_Update sampleTable).1 ⟨3, by decide⟩
      ⟨⟨11, 3⟩, by decide, rfl⟩ [2, 1] (by decide) 3 (by decide) (by decide)).2.2.2.2⟩

/-! ## A tick during a foreground call -/

/-- C20 (as stated) fails for `Timer_Create`.  On the table with slots 0 and 1 at 0xC000
(handlers 1, 2), a tick after the first loop test of `Timer_Create(9)` makes the call
return 1 and leaves `[0xBFFF/1, 0x4000/9, 0, 0, 0]`; `Timer_Update` then `Timer_Create`
returns 0 with `[0x4000/9, 0xBFFF/2, 0, 0, 0]`, and `Timer_Create` then `Timer_Update`
returns 2 with `[0xBFFF/1, 0xBFFF/2, 0x4000/9, 0, 0]`. -/
theorem C20_create_preempted_not_sequential :
    zeroStarted = ![⟨0xC000, 1⟩, ⟨0xC000, 2⟩, ⟨0, 0⟩, ⟨0, 0⟩, ⟨0, 0⟩] ∧
    Timer_Create_preempted zeroStarted 9 1 =
      (1, ![⟨0xBFFF, 1⟩, ⟨0x4000, 9⟩, ⟨0, 0⟩, ⟨0, 0⟩, ⟨0, 0⟩]) ∧
    Timer_Create (Timer_Update zeroStarted).1 9 =
      (0, ![⟨0x4000, 9⟩, ⟨0xBFFF, 2⟩, ⟨0, 0⟩, ⟨0, 0⟩, ⟨0, 0⟩]) ∧
    ((Timer_Create zeroStarted 9).1, (Timer_Update (Timer_Create zeroStarted 9).2).1) =
      (2, ![⟨0xBFFF, 1⟩, ⟨0xBFFF, 2⟩, ⟨0x4000, 9⟩, ⟨0, 0⟩, ⟨0, 0⟩]) ∧
    (Timer_Create_preempted zeroStarted 9 1).2 ≠ (Timer_Create (Timer_Update zeroStarted).1 9).2 ∧
    (Timer_Create_preempted zeroStarted 9 1).2 ≠
      (Timer_Update (Timer_Create zeroStarted 9).2).1 := by
  decide

theorem Timer_Create_eq_commit (tbl : TimerTable) (cb : timer_handler_t) :
    Timer_Create tbl cb = Timer_Create_commit tbl cb (Timer_Create_scan tbl MAX_TIMERS 0) :=
  rfl

theorem create_steps_finished (cb : timer_handler_t) (k r : Nat) (t : TimerTable) :
    (Timer_Create_step cb)^[k] (CreatePc.finished r, t) = (CreatePc.finished r, t) :=
  Function.iterate_fixed rfl k

theorem create_steps_decided (cb : timer_handler_t) (k r : Nat) (t : TimerTable) :
    (Timer_Create_step cb)^[k + 1] (CreatePc.decided r, t) =
      (CreatePc.finished (Timer_Create_commit t cb r).1, (Timer_Create_commit t cb r).2) := by
  rw [Function.iterate_succ_apply]
  exact create_steps_finished cb k _ _

theorem create_steps_scanning (cb : timer_handler_t) (t : TimerTable) (k idx : Nat)
    (hle : idx + k ≤ MAX_TIMERS)
    (hcr : ∀ j : Fin MAX_TIMERS, idx ≤ j.val → j.val < idx + k →
      (t j).TimeoutTick &&& TIMER_CREATED_MASK ≠ 0) :
    (Timer_Create_step cb)^[k] (CreatePc.scanning idx, t) = (CreatePc.scanning (idx + k), t) := by
  induction k generalizing idx with
  | zero => rfl
  | succ k ih =>
    have hlt : idx < MAX_TIMERS := by omega
    have hstep : Timer_Create_step cb (CreatePc.scanning idx, t) =
        (CreatePc.scanning (idx + 1), t) := by
      simp only [Timer_Create_step, dif_pos hlt]
      rw [if_pos (hcr ⟨idx, hlt⟩ (le_refl _) (by simp only; omega))]
    rw [Function.iterate_succ_apply, hstep, ih (idx + 1) (by omega)
      (fun j h1 h2 => hcr j (by omega) (by omega))]
    have : idx + 1 + k = idx + (k + 1) := by omega
    rw [this]

theorem create_step_exit (cb : timer_handler_t) (t : TimerTable) (r : Nat)
    (hfree : ∀ j : Fin MAX_TIMERS, j.val = r → (t j).TimeoutTick &&& TIMER_CREATED_MASK = 0) :
    Timer_Create_step cb (CreatePc.scanning r, t) = (CreatePc.decided r, t) := by
  by_cases hlt : r < MAX_TIMERS
  · simp only [Timer_Create_step, dif_pos hlt]
    rw [if_neg (not_not.mpr (hfree ⟨r, hlt⟩ rfl))]
  · simp only [Timer_Create_step, dif_neg hlt]

/-- A whole `Timer_Create` run step by step from the loop test at `idx`, when `r` is the
index the loop ends with. -/
theorem create_steps_whole (cb : timer_handler_t) (t : TimerTable) (idx r n : Nat)
    (h1 : idx ≤ r) (h2 : r ≤ MAX_TIMERS)
    (hcr : ∀ j : Fin MAX_TIMERS, idx ≤ j.val → j.val < r →
      (t j).TimeoutTick &&& TIMER_CREATED_MASK ≠ 0)
    (hfree : ∀ j : Fin MAX_TIMERS, j.val = r → (t j).TimeoutTick &&& TIMER_CREATED_MASK = 0)
    (hn : r - idx + 2 ≤ n) :
    (Timer_Create_step cb)^[n] (CreatePc.scanning idx, t) =
      (CreatePc.finished (Timer_Create_commit t cb r).1, (Timer_Create_commit t cb r).2) := by
  obtain ⟨m, rfl⟩ : ∃ m, n = (m + 1) + (1 + (r - idx)) := ⟨n - (r - idx + 2), by omega⟩
  have e1 : (Timer_Create_step cb)^[(m + 1) + (1 + (r - idx))] (CreatePc.scanning idx, t) =
      (Timer_Create_step cb)^[m + 1]
        ((Timer_Create_step cb)^[1 + (r - idx)] (CreatePc.scanning idx, t)) :=
    Function.iterate_add_apply _ _ _ _
  have e2 : (Timer_Create_step cb)^[1 + (r - idx)] (CreatePc.scanning idx, t) =
      (Timer_Create_step cb)^[1]
        ((Timer_Create_step cb)^[r - idx] (CreatePc.scanning idx, t)) :=
    Function.iterate_add_apply _ _ _ _
  rw [e1, e2,
    create_steps_scanning cb t (r - idx) idx (by omega) (fun j a b => hcr j a (by omega))]
  have : idx + (r - idx) = r := by omega
  rw [this, Function.iterate_one, create_step_exit cb t r hfree, create_steps_decided]

/-- The step-by-step run of `Timer_Create` without a tick is `Timer_Create`. -/
theorem create_steps_eq_Timer_Create (cb : timer_handler_t) (t : TimerTable) :
    (Timer_Create_step cb)^[MAX_TIMERS + 2] (CreatePc.scanning 0, t) =
      (CreatePc.finished (Timer_Create t cb).1, (Timer_Create t cb).2) := by
  obtain ⟨_, hle, hbelow, hat⟩ := Timer_Create_scan_spec t MAX_TIMERS 0 (by decide) (by decide)
  rw [Timer_Create_eq_commit]
  exact create_steps_whole cb t 0 _ _ (Nat.zero_le _) hle hbelow
    (fun j hj => hat j hj) (by omega)

/-- The index the loop of `Timer_Create` ends with is determined by the `CREATED` bits. -/
theorem Timer_Create_scan_unique (t : TimerTable) (r : Nat) (h2 : r ≤ MAX_TIMERS)
    (hcr : ∀ j : Fin MAX_TIMERS, j.val < r → (t j).TimeoutTick &&& TIMER_CREATED_MASK ≠ 0)
    (hfree : ∀ j : Fin MAX_TIMERS, j.val = r → (t j).TimeoutTick &&& TIMER_CREATED_MASK = 0) :
    Timer_Create_scan t MAX_TIMERS 0 = r := by
  obtain ⟨_, hle, hbelow, hat⟩ := Timer_Create_scan_spec t MAX_TIMERS 0 (by decide) (by decide)
  rcases Nat.lt_trichotomy (Timer_Create_scan t MAX_TIMERS 0) r with h | h | h
  · have hlt : Timer_Create_scan t MAX_TIMERS 0 < MAX_TIMERS := lt_of_lt_of_le h h2
    exact absurd (hat ⟨_, hlt⟩ rfl) (hcr ⟨_, hlt⟩ h)
  · exact h
  · have hlt : r < MAX_TIMERS := lt_of_lt_of_le h hle
    exact absurd (hfree ⟨r, hlt⟩ rfl) (hbelow ⟨r, hlt⟩ (Nat.zero_le _) h)

/-- Without a slot at countdown 0, `Timer_Update` changes no `CREATED` bit. -/
theorem Timer_Update_keeps_created (tbl : TimerTable) (h : NoZeroCountdown tbl)
    (j : Fin MAX_TIMERS) :
    ((Timer_Update tbl).1 j).TimeoutTick &&& TIMER_CREATED_MASK ≠ 0 ↔
      (tbl j).TimeoutTick &&& TIMER_CREATED_MASK ≠ 0 := by
  have hj := h j
  simp only [TIMER_CREATED_AND_ACTIVE_AMSK, TIMER_TIMEOUT_MASK, and_created_active,
    and_timeout_mask] at hj
  rw [Timer_Update_fst]
  show tickWord (tbl j).TimeoutTick &&& 0x4000 ≠ 0 ↔ (tbl j).TimeoutTick &&& 0x4000 ≠ 0
  rw [and_created_ne_zero, and_created_ne_zero, tickWord_arith]
  split_ifs <;> omega

/-- A tick inside `Timer_Create`, on a table without a slot at countdown 0. -/
theorem Timer_Create_preempted_sequential (tbl : TimerTable) (cb : timer_handler_t) (k : Nat)
    (h : NoZeroCountdown tbl) :
    Timer_Create_preempted tbl cb k = Timer_Create (Timer_Update tbl).1 cb ∨
    Timer_Create_preempted tbl cb k =
      ((Timer_Create tbl cb).1, (Timer_Update (Timer_Create tbl cb).2).1) := by
  obtain ⟨_, hle, hbelow, hat⟩ := Timer_Create_scan_spec tbl MAX_TIMERS 0 (by decide) (by decide)
  have hbelowU : ∀ j : Fin MAX_TIMERS, j.val < Timer_Create_scan tbl MAX_TIMERS 0 →
      ((Timer_Update tbl).1 j).TimeoutTick &&& TIMER_CREATED_MASK ≠ 0 :=
    fun j hj => (Timer_Update_keeps_created tbl h j).mpr (hbelow j (Nat.zero_le _) hj)
  have hatU : ∀ j : Fin MAX_TIMERS, j.val = Timer_Create_scan tbl MAX_TIMERS 0 →
      ((Timer_Update tbl).1 j).TimeoutTick &&& TIMER_CREATED_MASK = 0 := by
    intro j hj
    by_contra hne
    exact (Timer_Update_keeps_created tbl h j).mp hne (hat j hj)
  have hscanU : Timer_Create_scan (Timer_Update tbl).1 MAX_TIMERS 0 =
      Timer_Create_scan tbl MAX_TIMERS 0 :=
    Timer_Create_scan_unique _ _ hle hbelowU hatU
  have hUC : Timer_Create (Timer_Update tbl).1 cb =
      Timer_Create_commit (Timer_Update tbl).1 cb (Timer_Create_scan tbl MAX_TIMERS 0) := by
    rw [Timer_Create_eq_commit, hscanU]
  unfold Timer_Create_preempted
  simp only
  rcases Nat.lt_trichotomy k (Timer_Create_scan tbl MAX_TIMERS 0 + 1) with hk | hk | hk
  · left
    rw [create_steps_scanning cb tbl k 0 (by omega)
      (fun j _ b => hbelow j (Nat.zero_le _) (by omega))]
    simp only
    rw [create_steps_whole cb (Timer_Update tbl).1 (0 + k) _ (MAX_TIMERS + 2) (by omega) hle
      (fun j _ b => hbelowU j b) hatU (by omega), hUC]
    rfl
  · left
    have hs1 : (Timer_Create_step cb)^[k] (CreatePc.scanning 0, tbl) =
        (CreatePc.decided (Timer_Create_scan tbl MAX_TIMERS 0), tbl) := by
      rw [hk, Function.iterate_succ_apply',
        create_steps_scanning cb tbl _ 0 (by omega)
          (fun j _ b => hbelow j (Nat.zero_le _) (by omega))]
      have : 0 + Timer_Create_scan tbl MAX_TIMERS 0 = Timer_Create_scan tbl MAX_TIMERS 0 := by
        omega
      rw [this]
      exact create_step_exit cb tbl _ hat
    rw [hs1]
    simp only
    rw [create_steps_decided, hUC]
    rfl
  · right
    have hs1 : (Timer_Create_step cb)^[k] (CreatePc.scanning 0, tbl) =
        (CreatePc.finished (Timer_Create tbl cb).1, (Timer_Create tbl cb).2) := by
      rw [Timer_Create_eq_commit]
      exact create_steps_whole cb tbl 0 _ k (Nat.zero_le _) hle hbelow hat (by omega)
    rw [hs1]
    simp only
    rw [create_steps_finished]
    rfl

theorem start_steps_returned (id t k : Nat) (tbl : TimerTable) :
    (Timer_Start_step id t)^[k] (GuardedPc.returned, tbl) = (GuardedPc.returned, tbl) :=
  Function.iterate_fixed rfl k

theorem start_steps_critical (id t k : Nat) (tbl : TimerTable) :
    (Timer_Start_step id t)^[k + 1] (GuardedPc.critical, tbl) =
      (GuardedPc.returned, Timer_Start tbl id t) := by
  rw [Function.iterate_succ_apply]
  exact start_steps_returned id t k _

theorem start_steps_entry (id t k : Nat) (tbl : TimerTable) :
    (Timer_Start_step id t)^[k + 2] (GuardedPc.entry, tbl) =
      (GuardedPc.returned, Timer_Start tbl id t) := by
  rw [Function.iterate_succ_apply]
  by_cases h : id < MAX_TIMERS
  · have : Timer_Start_step id t (GuardedPc.entry, tbl) = (GuardedPc.critical, tbl) := by
      simp only [Timer_Start_step, if_pos h]
    rw [this, start_steps_critical]
  · have : Timer_Start_step id t (GuardedPc.entry, tbl) = (GuardedPc.returned, tbl) := by
      simp only [Timer_Start_step, if_neg h]
    rw [this, start_steps_returned]
    simp only [Timer_Start, dif_neg h]

theorem stop_steps_returned (id k : Nat) (tbl : TimerTable) :
    (Timer_Stop_step id)^[k] (GuardedPc.returned, tbl) = (GuardedPc.returned, tbl) :=
  Function.iterate_fixed rfl k

theorem stop_steps_critical (id k : Nat) (tbl : TimerTable) :
    (Timer_Stop_step id)^[k + 1] (GuardedPc.critical, tbl) =
      (GuardedPc.returned, Timer_Stop tbl id) := by
  rw [Function.iterate_succ_apply]
  exact stop_steps_returned id k _

theorem stop_steps_entry (id k : Nat) (tbl : TimerTable) :
    (Timer_Stop_step id)^[k + 2] (GuardedPc.entry, tbl) =
      (GuardedPc.returned, Timer_Stop tbl id) := by
  rw [Function.iterate_succ_apply]
  by_cases h : id < MAX_TIMERS
  · have : Timer_Stop_step id (GuardedPc.entry, tbl) = (GuardedPc.critical, tbl) := by
      simp only [Timer_Stop_step, if_pos h]
    rw [this, stop_steps_critical]
  · have : Timer_Stop_step id (GuardedPc.entry, tbl) = (GuardedPc.returned, tbl) := by
      simp only [Timer_Stop_step, if_neg h]
    rw [this, stop_steps_returned]
    simp only [Timer_Stop, dif_neg h]

/-- A tick during `Timer_Start` falls before or after the read-modify-write. -/
theorem Timer_Start_preempted_sequential (tbl : TimerTable) (id t k : Nat) :
    Timer_Start_preempted tbl id t k = Timer_Start (Timer_Update tbl).1 id t ∨
    Timer_Start_preempted tbl id t k = (Timer_Update (Timer_Start tbl id t)).1 := by
  unfold Timer_Start_preempted
  simp only
  match k with
  | 0 =>
    left
    rw [Function.iterate_zero, id_eq, start_steps_entry id t 0]
  | 1 =>
    left
    rw [Function.iterate_one]
    by_cases h : id < MAX_TIMERS
    · have : Timer_Start_step id t (GuardedPc.entry, tbl) = (GuardedPc.critical, tbl) := by
        simp only [Timer_Start_step, if_pos h]
      rw [this, start_steps_critical id t 1]
    · have : Timer_Start_step id t (GuardedPc.entry, tbl) = (GuardedPc.returned, tbl) := by
        simp only [Timer_Start_step, if_neg h]
      rw [this, start_steps_returned]
      simp only [Timer_Start, dif_neg h]
  | k + 2 =>
    right
    rw [start_steps_entry id t k, start_steps_returned]

/-- A tick during `Timer_Stop` falls before or after the read-modify-write. -/
theorem Timer_Stop_preempted_sequential (tbl : TimerTable) (id k : Nat) :
    Timer_Stop_preempted tbl id k = Timer_Stop (Timer_Update tbl).1 id ∨
    Timer_Stop_preempted tbl id k = (Timer_Update (Timer_Stop tbl id)).1 := by
  unfold Timer_Stop_preempted
  simp only
  match k with
  | 0 =>
    left
    rw [Function.iterate_zero, id_eq, stop_steps_entry id 0]
  | 1 =>
    left
    rw [Function.iterate_one]
    by_cases h : id < MAX_TIMERS
    · have : Timer_Stop_step id (GuardedPc.entry, tbl) = (GuardedPc.critical, tbl) := by
        simp only [Timer_Stop_step, if_pos h]
      rw [this, stop_steps_critical id 1]
    · have : Timer_Stop_step id (GuardedPc.entry, tbl) = (GuardedPc.returned, tbl) := by
        simp only [Timer_Stop_step, if_neg h]
      rw [this, stop_steps_returned]
      simp only [Timer_Stop, dif_neg h]
  | k + 2 =>
    right
    rw [stop_steps_entry id k, stop_steps_returned]

/-- C20 (amended): when the tick interrupt running `Timer_Update` preempts a foreground
call once, between two of its steps (a step is one loop test or guard, or the whole span
between disabling and re-enabling the tick interrupt), the resulting table equals the
result of the two operations in one of the two sequential orders: always for `Timer_Start`
and `Timer_Stop`, whose read-modify-write lies between the two macros, and for
`Timer_Create`, whose two stores lie between them but whose scan does not, whenever no
slot is created and active with countdown 0 when the call starts (then the value returned
agrees with that order too). -/
theorem C20_single_tick_preemption_sequential :
    (∀ (tbl : TimerTable) (id t k : Nat),
      Timer_Start_preempted tbl id t k = Timer_Start (Timer_Update tbl).1 id t ∨
      Timer_Start_preempted tbl id t k = (Timer_Update (Timer_Start tbl id t)).1) ∧
    (∀ (tbl : TimerTable) (id k : Nat),
      Timer_Stop_preempted tbl id k = Timer_Stop (Timer_Update tbl).1 id ∨
      Timer_Stop_preempted tbl id k = (Timer_Update (Timer_Stop tbl id)).1) ∧
    (∀ (tbl : TimerTable) (cb : timer_handler_t) (k : Nat), NoZeroCountdown tbl →
      Timer_Create_preempted tbl cb k = Timer_Create (Timer_Update tbl).1 cb ∨
      Timer_Create_preempted tbl cb k =
        ((Timer_Create tbl cb).1, (Timer_Update (Timer_Create tbl cb).2).1)) :=
  ⟨Timer_Start_preempted_sequential, Timer_Stop_preempted_sequential,
    Timer_Create_preempted_sequential⟩

/-- C20 (amended) at `sampleTable` (slot 0 created, slot 3 running with countdown 2): a
tick after the first loop test of `Timer_Create(7)`. -/
theorem C20_single_tick_preemption_sequential_witness :
    NoZeroCountdown sampleTable ∧
    (Timer_Create_preempted sampleTable 7 1).1 = 1 ∧
    ((Timer_Create_preempted sampleTable 7 1).2 ⟨3, by decide⟩).TimeoutTick = 0xC001 ∧
    (Timer_Create_preempted sampleTable 7 1 = Timer_Create (Timer_Update sampleTable).1 7 ∨
      Timer_Create_preempted sampleTable 7 1 =
        ((Timer_Create sampleTable 7).1, (Timer_Update (Timer_Create sampleTable 7).2).1)) :=
  ⟨by decide, by decide, by decide,
    C20_single_tick_preemption_sequential.2.2 sampleTable 7 1 (by decide)⟩

end SoftTimers
